import Mathlib

/-!
Calendar service: validation layer, repository, error mapping and their
properties.

A shallow embedding of `internal/service/service.go`, `internal/errors/errors.go`,
`internal/repository/repository.go` over a model of the `events` table, and
`handleError` with the delete and update handlers of
`internal/transport/server.go`.

Modelling conventions
* Go `string` values are Lean `String`s.  The only byte-level inspection the
  program performs is `time.Parse` with the layout `2006-01-02`, which accepts
  ASCII digits and `-` only, so reading a string as its list of characters
  gives the same accept/reject answer as reading it as bytes.
* A Go `error` is `Option GoError`; `none` is the `nil` error.
* A Go slice that may be `nil` is `Option (List _)`; `none` is the `nil` slice.
* `*models.Event` arguments are modelled by value (a non-nil pointer).
* The repository is an interface; the service is parametric in any
  implementation, which is a family of state transformers on a store `σ`.
* The repository of `internal/repository` runs its SQL statements on the table
  as a list of rows: `INSERT` appends a row, `DELETE` and `UPDATE` act on every
  row the `WHERE` clause selects and report how many there were, `SELECT`
  returns the selected rows in table order.  The database itself does not fail,
  except where it cannot read a text bound to the `date` column.
-/

set_option linter.dupNamespace false

namespace Calendar

deriving instance DecidableEq for Except

/-! ## internal/models -/

/-- The event record as the service, the repository and the tests use it:
`UserID`, `EventID`, `Event` and `Date` are all Go strings, and `Date` is what
`time.Parse` receives.  (The declaration in `internal/models/event.go` spells the
first field `UserId` and gives `Date` the type `time.Time`; every use site in
the service, the repository and the tests reads and writes the fields as
below.) -/
structure Event where
  UserID : String
  EventID : String
  Event : String
  Date : String
  deriving DecidableEq, Repr

/-! ## internal/errors -/

structure ValidationError where
  Field : String
  Message : String
  deriving DecidableEq, Repr

/-- `fmt.Sprintf("validation error: %s - %s", e.Field, e.Message)`. -/
def ValidationError.Error (e : ValidationError) : String :=
  "validation error: " ++ e.Field ++ " - " ++ e.Message

structure NotFoundError where
  Resource : String
  ID : String
  deriving DecidableEq, Repr

/-- `fmt.Sprintf("%s with id %s not found", e.Resource, e.ID)`. -/
def NotFoundError.Error (e : NotFoundError) : String :=
  e.Resource ++ " with id " ++ e.ID ++ " not found"

structure BusinessError where
  Message : String
  deriving DecidableEq, Repr

/-- `fmt.Sprintf("business error: %s", e.Message)`. -/
def BusinessError.Error (e : BusinessError) : String :=
  "business error: " ++ e.Message

/-- Non-nil values of Go's `error` interface that this program can build:
pointers to the three error structs of `internal/errors`, a text-only error
(`errors.New`, `fmt.Errorf` without `%w`, driver errors), an error made by
`fmt.Errorf` with one `%w` verb, which carries its own text and unwraps to the
wrapped error, and `errors.Join` of two errors, which unwraps to both. -/
inductive GoError where
  | validation (e : ValidationError)
  | business (e : BusinessError)
  | notFound (e : NotFoundError)
  | text (msg : String)
  | wrap (msg : String) (inner : GoError)
  | join (first second : GoError)
  deriving DecidableEq, Repr

/-- The `Error()` method. -/
def GoError.Error : GoError → String
  | .validation e => e.Error
  | .business e => e.Error
  | .notFound e => e.Error
  | .text msg => msg
  | .wrap msg _ => msg
  | .join first second => first.Error ++ "\n" ++ second.Error

/-- `errors.As(err, &target)` with `target : *ValidationError`: walk the
`Unwrap` tree depth first and return the first error of that type. -/
def GoError.asValidation : GoError → Option ValidationError
  | .validation e => some e
  | .wrap _ inner => inner.asValidation
  | .join first second =>
    match first.asValidation with
    | some e => some e
    | none => second.asValidation
  | _ => none

/-- `errors.As(err, &target)` with `target : *BusinessError`. -/
def GoError.asBusiness : GoError → Option BusinessError
  | .business e => some e
  | .wrap _ inner => inner.asBusiness
  | .join first second =>
    match first.asBusiness with
    | some e => some e
    | none => second.asBusiness
  | _ => none

/-! ## time.Parse with layout `2006-01-02` (`time.DateOnly`) -/

/-- The civil fields of a `time.Time` in UTC. -/
structure Time where
  year : Nat
  month : Nat
  day : Nat
  hour : Nat
  minute : Nat
  second : Nat
  deriving DecidableEq, Repr

/-- Why `time.Parse` rejected its input. -/
inductive ParseError where
  | bad
  | monthOutOfRange
  | extraText
  | dayOutOfRange
  deriving DecidableEq, Repr

/-- `isDigit(s, i)`: index `i` is in range and holds an ASCII digit. -/
def isDigit (s : List Char) (i : Nat) : Bool :=
  match s.get? i with
  | none => false
  | some c => decide (48 ≤ c.toNat ∧ c.toNat ≤ 57)

/-- `int(c - '0')` for a digit byte. -/
def digitVal (c : Char) : Nat := c.toNat - 48

/-- `leadingInt`: consume leading digits, accumulating their value; returns the
value and the unconsumed rest.  (The overflow exit needs more than 18 digits and
is unreachable on the four-byte slice `atoi` is called with here; it is
modelled all the same.) -/
def leadingInt : List Char → Nat → Option (Nat × List Char)
  | [], x => some (x, [])
  | c :: cs, x =>
    if c.toNat < 48 ∨ c.toNat > 57 then some (x, c :: cs)
    else if x > 2 ^ 63 / 10 then none
    else if x * 10 + digitVal c > 2 ^ 63 then none
    else leadingInt cs (x * 10 + digitVal c)

/-- `atoi` restricted to inputs whose first byte is not a sign (the caller has
checked `isDigit(value, 0)`): all bytes must be digits. -/
def atoi (s : List Char) : Option Nat :=
  match leadingInt s 0 with
  | none => none
  | some (q, rem) => if rem.length > 0 then none else some q

/-- `getnum(s, fixed)`: one or two digits; with `fixed` exactly two. -/
def getnum (s : List Char) (fixed : Bool) : Option (Nat × List Char) :=
  if !isDigit s 0 then none
  else if !isDigit s 1 then
    if fixed then none
    else
      match s with
      | c :: rest => some (digitVal c, rest)
      | [] => none
  else
    match s with
    | c0 :: c1 :: rest => some (digitVal c0 * 10 + digitVal c1, rest)
    | _ => none

/-- `skip(value, pre)` for a literal chunk `pre` without spaces (the literal
chunks of the layout `2006-01-02` are `-`): each byte must match. -/
def skip : List Char → List Char → Option (List Char)
  | value, [] => some value
  | [], _ :: _ => none
  | v :: vs, p :: ps => if v ≠ p then none else skip vs ps

def isLeap (year : Nat) : Bool :=
  year % 4 == 0 && (year % 100 != 0 || year % 400 == 0)

/-- `daysIn(m, year)` for a month `1..12`. -/
def daysIn (m : Nat) (year : Nat) : Nat :=
  if m = 2 ∧ isLeap year then 29
  else
    match m with
    | 1 => 31 | 2 => 28 | 3 => 31 | 4 => 30 | 5 => 31 | 6 => 30
    | 7 => 31 | 8 => 31 | 9 => 30 | 10 => 31 | 11 => 30 | 12 => 31
    | _ => 0

/-- `time.Parse("2006-01-02", value)`: the chunk loop of `parse` unrolled for
this layout (long year, `-`, zero-padded month, `-`, zero-padded day, end),
followed by the day-of-month validation. -/
def timeParse (value : String) : Except ParseError Time :=
  let v := value.data
  -- stdLongYear
  if v.length < 4 ∨ !isDigit v 0 then .error .bad
  else
    match atoi (v.take 4) with
    | none => .error .bad
    | some year =>
      match skip (v.drop 4) ['-'] with
      | none => .error .bad
      | some v1 =>
        -- stdZeroMonth
        match getnum v1 true with
        | none => .error .bad
        | some (month, v2) =>
          if month ≤ 0 ∨ 12 < month then .error .monthOutOfRange
          else
            match skip v2 ['-'] with
            | none => .error .bad
            | some v3 =>
              -- stdZeroDay
              match getnum v3 true with
              | none => .error .bad
              | some (day, v4) =>
                if v4.length ≠ 0 then .error .extraText
                else if day < 1 ∨ day > daysIn month year then .error .dayOutOfRange
                else .ok ⟨year, month, day, 0, 0, 0⟩

/-! ## github.com/google/uuid -/

/-- A `uuid.UUID`: sixteen bytes. -/
structure UUID where
  bytes : List (Fin 256)
  size : bytes.length = 16

/-- One nibble in lower-case hexadecimal. -/
def hexDigit (n : Nat) : Char :=
  match n with
  | 0 => '0' | 1 => '1' | 2 => '2' | 3 => '3' | 4 => '4' | 5 => '5' | 6 => '6' | 7 => '7'
  | 8 => '8' | 9 => '9' | 10 => 'a' | 11 => 'b' | 12 => 'c' | 13 => 'd' | 14 => 'e' | _ => 'f'

/-- `hex.Encode` on a byte slice: two digits per byte, high nibble first. -/
def encodeHex : List (Fin 256) → List Char
  | [] => []
  | b :: bs => hexDigit (b.val / 16) :: hexDigit (b.val % 16) :: encodeHex bs

/-- `UUID.String()`: the form `xxxxxxxx-xxxx-xxxx-xxxx-xxxxxxxxxxxx`. -/
def UUID.String (u : UUID) : String :=
  String.mk (encodeHex (u.bytes.take 4) ++ '-' :: encodeHex ((u.bytes.drop 4).take 2)
    ++ '-' :: encodeHex ((u.bytes.drop 6).take 2) ++ '-' :: encodeHex ((u.bytes.drop 8).take 2)
    ++ '-' :: encodeHex (u.bytes.drop 10))

/-! ## internal/repository: the interface the service depends on -/

/-- `CalendarRepositoryInterface`: any implementation, as state transformers on
a store `σ`.  A method returning `error` yields `Option GoError`; a method
returning `([]*models.Event, error)` yields the pair. -/
structure CalendarRepositoryInterface (σ : Type) where
  CreateEvent : Event → σ → Option GoError × σ
  GetEventsForDay : String → Time → σ → (Option (List Event) × Option GoError) × σ
  GetEventsForWeek : String → Time → σ → (Option (List Event) × Option GoError) × σ
  GetEventsForMonth : String → Time → σ → (Option (List Event) × Option GoError) × σ
  DeleteEvent : String → σ → Option GoError × σ
  UpdateEvent : Event → σ → Option GoError × σ

/-! ## internal/service -/

/-- What the service's methods act on: the repository's store, and how many
identifiers have been drawn from `uuid.New` so far. -/
structure World (σ : Type) where
  store : σ
  drawn : Nat

structure CalendarService (σ : Type) where
  repo : CalendarRepositoryInterface σ

namespace CalendarService

variable {σ : Type}

/-- `CalendarService.CreateEvent`.  `uuidNew k` is the value the `k`-th call of
`uuid.New()` returns. -/
def CreateEvent (s : CalendarService σ) (uuidNew : Nat → UUID) (event : Event) (w : World σ) :
    (String × Option GoError) × World σ :=
  if event.UserID = "" then
    (("", some (.validation ⟨"user_id", "can't be empty"⟩)), w)
  else if event.Event = "" then
    (("", some (.validation ⟨"event", "can't be empty"⟩)), w)
  else
    match timeParse event.Date with
    | .error _ => (("", some (.validation ⟨"date", "format must be YYYY-MM-DD"⟩)), w)
    | .ok _ =>
      let id := (uuidNew w.drawn).String
      let event := { event with EventID := id }
      match s.repo.CreateEvent event w.store with
      | (some err, st) => (("", some (.business ⟨err.Error⟩)), ⟨st, w.drawn + 1⟩)
      | (none, st) => ((id, none), ⟨st, w.drawn + 1⟩)

/-- `CalendarService.GetEventsForDay`. -/
def GetEventsForDay (s : CalendarService σ) (userID dateStr : String) (w : World σ) :
    (Option (List Event) × Option GoError) × World σ :=
  if userID = "" then
    ((none, some (.validation ⟨"user_id", "can't be empty"⟩)), w)
  else if dateStr = "" then
    ((none, some (.validation ⟨"date", "can't be empty"⟩)), w)
  else
    match timeParse dateStr with
    | .error _ => ((none, some (.validation ⟨"date", "format must be YYYY-MM-DD"⟩)), w)
    | .ok date =>
      match s.repo.GetEventsForDay userID date w.store with
      | ((_, some err), st) => ((none, some (.business ⟨err.Error⟩)), ⟨st, w.drawn⟩)
      | ((none, none), st) => ((some [], none), ⟨st, w.drawn⟩)
      | ((some events, none), st) => ((some events, none), ⟨st, w.drawn⟩)

/-- `CalendarService.GetEventsForWeek`. -/
def GetEventsForWeek (s : CalendarService σ) (userID dateStr : String) (w : World σ) :
    (Option (List Event) × Option GoError) × World σ :=
  if userID = "" then
    ((none, some (.validation ⟨"user_id", "can't be empty"⟩)), w)
  else if dateStr = "" then
    ((none, some (.validation ⟨"date", "can't be empty"⟩)), w)
  else
    match timeParse dateStr with
    | .error _ => ((none, some (.validation ⟨"date", "format must be YYYY-MM-DD"⟩)), w)
    | .ok date =>
      match s.repo.GetEventsForWeek userID date w.store with
      | ((_, some err), st) => ((none, some (.business ⟨err.Error⟩)), ⟨st, w.drawn⟩)
      | ((none, none), st) => ((some [], none), ⟨st, w.drawn⟩)
      | ((some events, none), st) => ((some events, none), ⟨st, w.drawn⟩)

/-- `CalendarService.GetEventsForMonth`. -/
def GetEventsForMonth (s : CalendarService σ) (userID dateStr : String) (w : World σ) :
    (Option (List Event) × Option GoError) × World σ :=
  if userID = "" then
    ((none, some (.validation ⟨"user_id", "user id can't be empty"⟩)), w)
  else if dateStr = "" then
    ((none, some (.validation ⟨"date", "can't be empty"⟩)), w)
  else
    match timeParse dateStr with
    | .error _ => ((none, some (.validation ⟨"date", "format must be YYYY-MM-DD"⟩)), w)
    | .ok date =>
      match s.repo.GetEventsForMonth userID date w.store with
      | ((_, some err), st) => ((none, some (.business ⟨err.Error⟩)), ⟨st, w.drawn⟩)
      | ((none, none), st) => ((some [], none), ⟨st, w.drawn⟩)
      | ((some events, none), st) => ((some events, none), ⟨st, w.drawn⟩)

/-- `CalendarService.DeleteEvent`. -/
def DeleteEvent (s : CalendarService σ) (eventID : String) (w : World σ) :
    Option GoError × World σ :=
  if eventID = "" then
    (some (.validation ⟨"event_id", "event id can't be empty"⟩), w)
  else
    match s.repo.DeleteEvent eventID w.store with
    | (some err, st) => (some (.business ⟨err.Error⟩), ⟨st, w.drawn⟩)
    | (none, st) => (none, ⟨st, w.drawn⟩)

/-- `CalendarService.UpdateEvent`. -/
def UpdateEvent (s : CalendarService σ) (event : Event) (w : World σ) :
    Option GoError × World σ :=
  if event.EventID = "" then
    (some (.validation ⟨"event_id", "event id can't be empty"⟩), w)
  else if event.UserID = "" then
    (some (.validation ⟨"user_id", "user id can't be empty"⟩), w)
  else
    match timeParse event.Date with
    | .error _ => (some (.validation ⟨"date", "format must be YYYY-MM-DD"⟩), w)
    | .ok _ =>
      match s.repo.UpdateEvent event w.store with
      | (some err, st) => (some (.business ⟨err.Error⟩), ⟨st, w.drawn⟩)
      | (none, st) => (none, ⟨st, w.drawn⟩)

end CalendarService

/-! ## internal/transport: `handleError` -/

/-- `ErrorResponse`; `Details` is a `map[string]string`, `none` when it is left
unset. -/
structure ErrorResponse where
  Error : String
  Message : String
  Details : Option (List (String × String))
  deriving DecidableEq, Repr

/-- What a handler passes to `c.JSON`: the HTTP status and the body. -/
structure Response where
  status : Nat
  body : ErrorResponse
  deriving DecidableEq, Repr

/-- `CalendarServer.handleError`: the response written for `err`. -/
def handleError (err : Option GoError) : Response :=
  match err.bind GoError.asValidation with
  | some validationErr =>
    ⟨400, ⟨"validation_error", validationErr.Error,
      some [(validationErr.Field, validationErr.Message)]⟩⟩
  | none =>
    match err.bind GoError.asBusiness with
    | some businessErr => ⟨503, ⟨"business_error", businessErr.Error, none⟩⟩
    | none => ⟨500, ⟨"internal_server_error", "An unexpected error occurred", none⟩⟩

/-! ## time.Time arithmetic used by the repository

`time.Date` turns civil fields, which may overflow their usual ranges, into an
instant; `Time.AddDate` and `Time.Add` go through it.  Instants are counted in
seconds from the start of year -399, a year that, like the absolute zero year of
package `time`, is one more than a multiple of 400.  Offsets are natural
numbers: the repository only ever adds. -/

/-- `daysBefore[m]`: days in a non-leap year before month `m + 1`. -/
def daysBefore (m : Nat) : Nat :=
  match m with
  | 0 => 0 | 1 => 31 | 2 => 59 | 3 => 90 | 4 => 120 | 5 => 151 | 6 => 181
  | 7 => 212 | 8 => 243 | 9 => 273 | 10 => 304 | 11 => 334 | _ => 365

/-- `daysSinceEpoch(year)`: days from the epoch to the first day of `year`,
through 400-, 100- and 4-year cycles. -/
def daysSinceEpoch (year : Nat) : Nat :=
  let y := year + 399
  let n400 := y / 400
  let y1 := y - 400 * n400
  let n100 := y1 / 100
  let y2 := y1 - 100 * n100
  let n4 := y2 / 4
  let y3 := y2 - 4 * n4
  146097 * n400 + 36524 * n100 + 1461 * n4 + 365 * y3

/-- The instant `time.Date(year, month, day, hour, min, sec, 0, UTC)` denotes, in
seconds since the epoch: seconds, minutes and hours carry upwards, the month
carries into the year, and the day is counted on from the first of the month,
so a day past the end of the month lands in a later month. -/
def dateSeconds (year month day hour min sec : Nat) : Nat :=
  let min1 := min + sec / 60
  let hour1 := hour + min1 / 60
  let day1 := day + hour1 / 24
  let m := month - 1
  let year1 := year + m / 12
  let month1 := m % 12 + 1
  let d := daysSinceEpoch year1 + daysBefore (month1 - 1)
    + (if isLeap year1 ∧ month1 ≥ 3 then 1 else 0) + (day1 - 1)
  d * 86400 + (hour1 % 24) * 3600 + (min1 % 60) * 60 + sec % 60

/-- The instant of a `Time`. -/
def Time.abs (t : Time) : Nat :=
  dateSeconds t.year t.month t.day t.hour t.minute t.second

/-- `absDate` and `absClock`: the civil fields of an instant. -/
def timeOfSeconds (abs : Nat) : Time :=
  let d := abs / 86400
  let n400 := d / 146097
  let d1 := d - 146097 * n400
  let n100 := d1 / 36524 - (d1 / 36524) / 4
  let d2 := d1 - 36524 * n100
  let n4 := d2 / 1461
  let d3 := d2 - 1461 * n4
  let n1 := d3 / 365 - (d3 / 365) / 4
  let yday := d3 - 365 * n1
  let year := 400 * n400 + 100 * n100 + 4 * n4 + n1 - 399
  let secs := abs % 86400
  if isLeap year ∧ yday = 31 + 29 - 1 then
    ⟨year, 2, 29, secs / 3600, (secs % 3600) / 60, secs % 60⟩
  else
    let day := if isLeap year ∧ yday > 31 + 29 - 1 then yday - 1 else yday
    let month := day / 31
    let monthEnd := daysBefore (month + 1)
    if day ≥ monthEnd then
      ⟨year, month + 2, day - monthEnd + 1, secs / 3600, (secs % 3600) / 60, secs % 60⟩
    else
      ⟨year, month + 1, day - daysBefore month + 1, secs / 3600, (secs % 3600) / 60, secs % 60⟩

/-- `t.AddDate(years, months, days)`. -/
def Time.AddDate (t : Time) (years months days : Nat) : Time :=
  timeOfSeconds (dateSeconds (t.year + years) (t.month + months) (t.day + days)
    t.hour t.minute t.second)

/-- `t.Add(d)` for a duration of `seconds` whole seconds. -/
def Time.Add (t : Time) (seconds : Nat) : Time :=
  timeOfSeconds (t.abs + seconds)

/-- `appendInt(b, x, width)`: decimal digits of `x`, zero-padded to `width`. -/
def appendInt (x width : Nat) : List Char :=
  let digits := Nat.toDigits 10 x
  List.replicate (width - digits.length) '0' ++ digits

/-- `t.Format(time.DateOnly)`. -/
def Time.Format (t : Time) : String :=
  String.mk (appendInt t.year 4 ++ '-' :: appendInt t.month 2 ++ '-' :: appendInt t.day 2)

/-- The zero `time.Time`, which `time.Parse` returns next to an error:
January 1 of year 1, 00:00:00 UTC. -/
def zeroTime : Time := ⟨1, 1, 1, 0, 0, 0⟩

/-! ## internal/repository over a model of the `events` table -/

/-- One row of the table `events(event_id, user_id, event, date)`. -/
structure EventRow where
  event_id : String
  user_id : String
  event : String
  date : Time
  deriving DecidableEq, Repr

namespace CalendarRepository

/-- `rows.Scan` into a `models.Event`, the date formatted with `time.DateOnly`. -/
def scan (r : EventRow) : Event :=
  ⟨r.user_id, r.event_id, r.event, r.date.Format⟩

/-- The loop over `rows.Next()` that appends each scanned event to `events`,
run over the rows a query selected: the slice stays `nil` when there is no
row. -/
def collect (selected : List EventRow) : Option (List Event) :=
  match selected with
  | [] => none
  | r :: rs => some ((r :: rs).map scan)

/-- `CalendarRepository.CreateEvent`: `INSERT INTO events ... VALUES ($1, $2, $3,
$4)` with the date parsed by `time.Parse`, the parse error dropped. -/
def CreateEvent (event : Event) (rows : List EventRow) : Option GoError × List EventRow :=
  let date := match timeParse event.Date with
    | .ok t => t
    | .error _ => zeroTime
  (none, rows ++ [⟨event.EventID, event.UserID, event.Event, date⟩])

/-- `CalendarRepository.GetEventsForDay`: `SELECT ... WHERE user_id = $1 AND
date = $2`. -/
def GetEventsForDay (userID : String) (date : Time) (rows : List EventRow) :
    (Option (List Event) × Option GoError) × List EventRow :=
  ((collect (rows.filter (fun r => r.user_id = userID ∧ r.date.abs = date.abs)), none), rows)

/-- `CalendarRepository.GetEventsForWeek`: `SELECT ... WHERE user_id = $1 AND
date BETWEEN $2 AND $3`, with `$3` six days, 23 hours, 59 minutes and 59 seconds
after `$2`. -/
def GetEventsForWeek (userID : String) (date : Time) (rows : List EventRow) :
    (Option (List Event) × Option GoError) × List EventRow :=
  let endDate := (date.AddDate 0 0 6).Add (23 * 3600 + 59 * 60 + 59)
  ((collect (rows.filter (fun r =>
      r.user_id = userID ∧ date.abs ≤ r.date.abs ∧ r.date.abs ≤ endDate.abs)), none), rows)

/-- `CalendarRepository.GetEventsForMonth`: `SELECT ... WHERE user_id = $1 AND
date BETWEEN $2 AND $3`, with `$3 = date.AddDate(0, 1, 0)`. -/
def GetEventsForMonth (userID : String) (date : Time) (rows : List EventRow) :
    (Option (List Event) × Option GoError) × List EventRow :=
  let endDate := date.AddDate 0 1 0
  ((collect (rows.filter (fun r =>
      r.user_id = userID ∧ date.abs ≤ r.date.abs ∧ r.date.abs ≤ endDate.abs)), none), rows)

/-- `CalendarRepository.DeleteEvent`: `DELETE FROM events WHERE event_id = $1`,
then the check of `RowsAffected()`. -/
def DeleteEvent (eventID : String) (rows : List EventRow) : Option GoError × List EventRow :=
  let rowsAffected := (rows.filter (fun r => r.event_id = eventID)).length
  let remaining := rows.filter (fun r => r.event_id ≠ eventID)
  if rowsAffected = 0 then
    (some (.text ("no event found with id: " ++ eventID)), remaining)
  else (none, remaining)

/-- `CalendarRepository.UpdateEvent`: `UPDATE events SET user_id = $1, event_id =
$2, event = $3, date = $4 WHERE event_id = $5`, then the check of
`RowsAffected()`.  The date is bound as the text `event.Date`; `readDate` is the
database's reading of a text as a value of the `date` column, and a text it
cannot read fails the statement with the database's message. -/
def UpdateEvent (readDate : String → Except String Time) (event : Event)
    (rows : List EventRow) : Option GoError × List EventRow :=
  match readDate event.Date with
  | .error msg => (some (.wrap ("error updating event: " ++ msg) (.text msg)), rows)
  | .ok date =>
    let rowsAffected := (rows.filter (fun r => r.event_id = event.EventID)).length
    let updated := rows.map (fun r =>
      if r.event_id = event.EventID then
        ⟨event.EventID, event.UserID, event.Event, date⟩
      else r)
    if rowsAffected = 0 then
      (some (.text ("no event found with id: " ++ event.EventID)), updated)
    else (none, updated)

end CalendarRepository

/-- `NewCalendarRepository`: the six methods as one implementation of the
interface, the table being the store. -/
def NewCalendarRepository (readDate : String → Except String Time) :
    CalendarRepositoryInterface (List EventRow) where
  CreateEvent := CalendarRepository.CreateEvent
  GetEventsForDay := CalendarRepository.GetEventsForDay
  GetEventsForWeek := CalendarRepository.GetEventsForWeek
  GetEventsForMonth := CalendarRepository.GetEventsForMonth
  DeleteEvent := CalendarRepository.DeleteEvent
  UpdateEvent := CalendarRepository.UpdateEvent readDate

/-- A database that reads a `YYYY-MM-DD` text as that date and rejects any other
text. -/
def isoReadDate (text : String) : Except String Time :=
  match timeParse text with
  | .ok t => .ok t
  | .error _ => .error ("invalid input syntax for type date: " ++ text)

/-! ## internal/transport: the delete and update handlers -/

/-- The JSON body a handler writes: a `result` message or an `ErrorResponse`. -/
inductive ReplyBody where
  | result (text : String)
  | error (e : ErrorResponse)
  deriving DecidableEq, Repr

/-- The status and body a handler writes. -/
structure Reply where
  status : Nat
  body : ReplyBody
  deriving DecidableEq, Repr

/-- `deleteEventHandler` after the method check and a successful
`ShouldBindJSON`: `requestID` is `request.ID`. -/
def deleteEventHandler {σ : Type} (s : CalendarService σ) (requestID : String) (w : World σ) :
    Reply × World σ :=
  match s.DeleteEvent requestID w with
  | (some err, w1) => (⟨(handleError (some err)).status, .error (handleError (some err)).body⟩, w1)
  | (none, w1) => (⟨200, .result "Event deleted successfully"⟩, w1)

/-- `updateEventHandler` after the method check and a successful
`ShouldBindJSON`. -/
def updateEventHandler {σ : Type} (s : CalendarService σ) (request : Event) (w : World σ) :
    Reply × World σ :=
  match s.UpdateEvent request w with
  | (some err, w1) => (⟨(handleError (some err)).status, .error (handleError (some err)).body⟩, w1)
  | (none, w1) => (⟨200, .result "Event updated successfully"⟩, w1)

/-! ## Observing the repository calls of an operation -/

/-- One call of a repository method, with its arguments. -/
inductive RepoCall where
  | CreateEvent (event : Event)
  | GetEventsForDay (userID : String) (date : Time)
  | GetEventsForWeek (userID : String) (date : Time)
  | GetEventsForMonth (userID : String) (date : Time)
  | DeleteEvent (eventID : String)
  | UpdateEvent (event : Event)
  deriving DecidableEq, Repr

/-- Any repository, made to append every call it receives to a log kept next to
its store before answering as the underlying repository does. -/
def recording {σ : Type} (r : CalendarRepositoryInterface σ) :
    CalendarRepositoryInterface (σ × List RepoCall) where
  CreateEvent := fun event st =>
    ((r.CreateEvent event st.1).1, ((r.CreateEvent event st.1).2, st.2 ++ [.CreateEvent event]))
  GetEventsForDay := fun userID date st =>
    ((r.GetEventsForDay userID date st.1).1,
      ((r.GetEventsForDay userID date st.1).2, st.2 ++ [.GetEventsForDay userID date]))
  GetEventsForWeek := fun userID date st =>
    ((r.GetEventsForWeek userID date st.1).1,
      ((r.GetEventsForWeek userID date st.1).2, st.2 ++ [.GetEventsForWeek userID date]))
  GetEventsForMonth := fun userID date st =>
    ((r.GetEventsForMonth userID date st.1).1,
      ((r.GetEventsForMonth userID date st.1).2, st.2 ++ [.GetEventsForMonth userID date]))
  DeleteEvent := fun eventID st =>
    ((r.DeleteEvent eventID st.1).1, ((r.DeleteEvent eventID st.1).2, st.2 ++ [.DeleteEvent eventID]))
  UpdateEvent := fun event st =>
    ((r.UpdateEvent event st.1).1, ((r.UpdateEvent event st.1).2, st.2 ++ [.UpdateEvent event]))

/-- A repository without a store whose every method answers with the same
error value and the same slice. -/
def stubRepository (err : Option GoError) (events : Option (List Event)) :
    CalendarRepositoryInterface Unit where
  CreateEvent := fun _ st => (err, st)
  GetEventsForDay := fun _ _ st => ((events, err), st)
  GetEventsForWeek := fun _ _ st => ((events, err), st)
  GetEventsForMonth := fun _ _ st => ((events, err), st)
  DeleteEvent := fun _ st => (err, st)
  UpdateEvent := fun _ st => (err, st)

/-- `MockRepository` of `internal/tests/service_test.go`: `CreateEvent`,
`DeleteEvent` and `UpdateEvent` return `nil`, `GetEventsForDay` returns
`nil, nil`.  (The test double does not define the week and month queries; here
they answer like the day query.) -/
def MockRepository : CalendarRepositoryInterface Unit := stubRepository none none

/-- A generator for examples: the `k`-th identifier has `k % 256` in every byte. -/
def sampleUuidNew (k : Nat) : UUID :=
  ⟨List.replicate 16 ⟨k % 256, Nat.mod_lt _ (by decide)⟩, by simp⟩

/-! ## Reference definitions in the words of the specification -/

/-- A string of the form `YYYY-MM-DD` naming a calendar date: ten characters,
digits around two `-`, month `01..12`, day `01..` the length of that month. -/
def isDateOnly (value : String) : Bool :=
  match value.data with
  | [y1, y2, y3, y4, a, m1, m2, b, d1, d2] =>
    [y1, y2, y3, y4, m1, m2, d1, d2].all (fun c => decide (48 ≤ c.toNat ∧ c.toNat ≤ 57))
      && a == '-' && b == '-'
      && decide (1 ≤ digitVal m1 * 10 + digitVal m2)
      && decide (digitVal m1 * 10 + digitVal m2 ≤ 12)
      && decide (1 ≤ digitVal d1 * 10 + digitVal d2)
      && decide (digitVal d1 * 10 + digitVal d2 ≤
          daysIn (digitVal m1 * 10 + digitVal m2)
            (digitVal y1 * 1000 + digitVal y2 * 100 + digitVal y3 * 10 + digitVal y4))
  | _ => false

/-- The reference definition of the service's update operation: reject an empty
`event_id`, then an empty `user_id`, then a date that is not `YYYY-MM-DD`;
otherwise call the repository's update once and report `nil` or a business
error.  The event text is not looked at. -/
def UpdateEventReference {σ : Type} (repoUpdateEvent : Event → σ → Option GoError × σ)
    (event : Event) (w : World σ) : Option GoError × World σ :=
  if event.EventID = "" then
    (some (.validation ⟨"event_id", "event id can't be empty"⟩), w)
  else if event.UserID = "" then
    (some (.validation ⟨"user_id", "user id can't be empty"⟩), w)
  else if isDateOnly event.Date = false then
    (some (.validation ⟨"date", "format must be YYYY-MM-DD"⟩), w)
  else
    let outcome := repoUpdateEvent event w.store
    (outcome.1.map (fun e => GoError.business ⟨e.Error⟩), ⟨outcome.2, w.drawn⟩)

/-- Every error in the `Unwrap` tree of an error, the error itself first, in
the order `errors.As` visits them. -/
def GoError.unwrapTree : GoError → List GoError
  | .wrap msg inner => .wrap msg inner :: inner.unwrapTree
  | .join first second => .join first second :: (first.unwrapTree ++ second.unwrapTree)
  | e => [e]

/-- The validation errors an error is or wraps. -/
def validationErrorsOf (err : Option GoError) : List ValidationError :=
  match err with
  | none => []
  | some e => e.unwrapTree.filterMap (fun x => match x with | .validation v => some v | _ => none)

/-- The business errors an error is or wraps. -/
def businessErrorsOf (err : Option GoError) : List BusinessError :=
  match err with
  | none => []
  | some e => e.unwrapTree.filterMap (fun x => match x with | .business b => some b | _ => none)

/-- The error-to-response mapping in the words of the specification. -/
def handleErrorReference (err : Option GoError) : Response :=
  match validationErrorsOf err with
  | v :: _ =>
    ⟨400, ⟨"validation_error", "validation error: " ++ v.Field ++ " - " ++ v.Message,
      some [(v.Field, v.Message)]⟩⟩
  | [] =>
    match businessErrorsOf err with
    | b :: _ => ⟨503, ⟨"business_error", "business error: " ++ b.Message, none⟩⟩
    | [] => ⟨500, ⟨"internal_server_error", "An unexpected error occurred", none⟩⟩

/-! ## Lemmas on the date parser -/

theorem digitVal_le_nine (c : Char) (h : c.toNat ≤ 57) : digitVal c ≤ 9 := by
  unfold digitVal; omega

theorem isDigit_zero_cons (c : Char) (cs : List Char) :
    isDigit (c :: cs) 0 = decide (48 ≤ c.toNat ∧ c.toNat ≤ 57) := by
  simp [isDigit]

theorem isDigit_one_cons (c d : Char) (cs : List Char) :
    isDigit (c :: d :: cs) 1 = decide (48 ≤ d.toNat ∧ d.toNat ≤ 57) := by
  simp [isDigit]

theorem skip_dash (v : Char) (vs : List Char) :
    skip (v :: vs) ['-'] = if v = '-' then some vs else none := by
  by_cases h : v = '-' <;> simp [skip, h]

theorem getnum_fixed_cons (c0 c1 : Char) (rest : List Char) :
    getnum (c0 :: c1 :: rest) true =
      if (48 ≤ c0.toNat ∧ c0.toNat ≤ 57) ∧ (48 ≤ c1.toNat ∧ c1.toNat ≤ 57)
      then some (digitVal c0 * 10 + digitVal c1, rest) else none := by
  unfold getnum
  rw [isDigit_zero_cons, isDigit_one_cons]
  by_cases h0 : 48 ≤ c0.toNat ∧ c0.toNat ≤ 57 <;>
    by_cases h1 : 48 ≤ c1.toNat ∧ c1.toNat ≤ 57 <;> simp [h0, h1]

theorem getnum_fixed_short (s : List Char) (h : s.length < 2) : getnum s true = none := by
  match s, h with
  | [], _ => simp [getnum, isDigit]
  | [c], _ => by_cases h0 : isDigit [c] 0 = true <;> simp [getnum, h0, isDigit]

theorem leadingInt_digit (c : Char) (cs : List Char) (x : Nat)
    (h : 48 ≤ c.toNat ∧ c.toNat ≤ 57) (hx : x ≤ 999) :
    leadingInt (c :: cs) x = leadingInt cs (x * 10 + digitVal c) := by
  have hd := digitVal_le_nine c h.2
  have h1 : ¬ (c.toNat < 48 ∨ c.toNat > 57) := by omega
  have h2 : ¬ (x > 2 ^ 63 / 10) := by norm_num; omega
  have h3 : ¬ (x * 10 + digitVal c > 2 ^ 63) := by norm_num; omega
  rw [leadingInt, if_neg h1, if_neg h2, if_neg h3]

theorem leadingInt_nondigit (c : Char) (cs : List Char) (x : Nat)
    (h : ¬ (48 ≤ c.toNat ∧ c.toNat ≤ 57)) :
    leadingInt (c :: cs) x = some (x, c :: cs) := by
  have h1 : c.toNat < 48 ∨ c.toNat > 57 := by omega
  rw [leadingInt, if_pos h1]

theorem atoi_four (a b c d : Char) :
    atoi [a, b, c, d] =
      if (48 ≤ a.toNat ∧ a.toNat ≤ 57) ∧ (48 ≤ b.toNat ∧ b.toNat ≤ 57)
          ∧ (48 ≤ c.toNat ∧ c.toNat ≤ 57) ∧ (48 ≤ d.toNat ∧ d.toNat ≤ 57)
      then some (digitVal a * 1000 + digitVal b * 100 + digitVal c * 10 + digitVal d)
      else none := by
  unfold atoi
  by_cases ha : 48 ≤ a.toNat ∧ a.toNat ≤ 57
  · have h1 := digitVal_le_nine a ha.2
    rw [leadingInt_digit a _ 0 ha (by omega)]
    by_cases hb : 48 ≤ b.toNat ∧ b.toNat ≤ 57
    · have h2 := digitVal_le_nine b hb.2
      rw [leadingInt_digit b _ _ hb (by omega)]
      by_cases hc : 48 ≤ c.toNat ∧ c.toNat ≤ 57
      · have h3 := digitVal_le_nine c hc.2
        rw [leadingInt_digit c _ _ hc (by omega)]
        by_cases hd : 48 ≤ d.toNat ∧ d.toNat ≤ 57
        · rw [leadingInt_digit d _ _ hd (by omega)]
          simp only [leadingInt, List.length_nil, gt_iff_lt, lt_self_iff_false, if_false]
          rw [if_pos ⟨ha, hb, hc, hd⟩]
          congr 1
          ring
        · rw [leadingInt_nondigit d _ _ hd, if_neg (fun h => hd h.2.2.2)]
          simp
      · rw [leadingInt_nondigit c _ _ hc, if_neg (fun h => hc h.2.2.1)]
        simp
    · rw [leadingInt_nondigit b _ _ hb, if_neg (fun h => hb h.2.1)]
      simp
  · rw [leadingInt_nondigit a _ _ ha, if_neg (fun h => ha h.1)]
    simp

/-- The parser on an input of at least ten characters, as one decision chain. -/
theorem timeParse_ten (y1 y2 y3 y4 a m1 m2 b d1 d2 : Char) (rest : List Char) :
    timeParse ⟨y1 :: y2 :: y3 :: y4 :: a :: m1 :: m2 :: b :: d1 :: d2 :: rest⟩ =
      if ¬ ((48 ≤ y1.toNat ∧ y1.toNat ≤ 57) ∧ (48 ≤ y2.toNat ∧ y2.toNat ≤ 57)
          ∧ (48 ≤ y3.toNat ∧ y3.toNat ≤ 57) ∧ (48 ≤ y4.toNat ∧ y4.toNat ≤ 57)) then .error .bad
      else if a ≠ '-' then .error .bad
      else if ¬ ((48 ≤ m1.toNat ∧ m1.toNat ≤ 57) ∧ (48 ≤ m2.toNat ∧ m2.toNat ≤ 57)) then
        .error .bad
      else if digitVal m1 * 10 + digitVal m2 ≤ 0 ∨ 12 < digitVal m1 * 10 + digitVal m2 then
        .error .monthOutOfRange
      else if b ≠ '-' then .error .bad
      else if ¬ ((48 ≤ d1.toNat ∧ d1.toNat ≤ 57) ∧ (48 ≤ d2.toNat ∧ d2.toNat ≤ 57)) then
        .error .bad
      else if rest ≠ [] then .error .extraText
      else if digitVal d1 * 10 + digitVal d2 < 1 ∨ digitVal d1 * 10 + digitVal d2 >
          daysIn (digitVal m1 * 10 + digitVal m2)
            (digitVal y1 * 1000 + digitVal y2 * 100 + digitVal y3 * 10 + digitVal y4) then
        .error .dayOutOfRange
      else .ok ⟨digitVal y1 * 1000 + digitVal y2 * 100 + digitVal y3 * 10 + digitVal y4,
        digitVal m1 * 10 + digitVal m2, digitVal d1 * 10 + digitVal d2, 0, 0, 0⟩ := by
  simp only [timeParse, List.take, List.drop, isDigit_zero_cons, atoi_four,
    skip_dash, getnum_fixed_cons, List.length_cons]
  by_cases hy : (48 ≤ y1.toNat ∧ y1.toNat ≤ 57) ∧ (48 ≤ y2.toNat ∧ y2.toNat ≤ 57)
          ∧ (48 ≤ y3.toNat ∧ y3.toNat ≤ 57) ∧ (48 ≤ y4.toNat ∧ y4.toNat ≤ 57)
  · have h0 : ¬ (rest.length + 1 + 1 + 1 + 1 + 1 + 1 + 1 + 1 + 1 + 1 < 4
        ∨ (!decide (48 ≤ y1.toNat ∧ y1.toNat ≤ 57)) = true) := by
      simp [hy.1]
    rw [if_neg h0, if_pos hy, if_neg (not_not.mpr hy)]
    by_cases ha : a = '-'
    · rw [if_pos ha, if_neg (not_not.mpr ha)]
      simp only [getnum_fixed_cons]
      by_cases hm : (48 ≤ m1.toNat ∧ m1.toNat ≤ 57) ∧ (48 ≤ m2.toNat ∧ m2.toNat ≤ 57)
      · rw [if_pos hm, if_neg (not_not.mpr hm)]
        simp only []
        by_cases hr : digitVal m1 * 10 + digitVal m2 ≤ 0 ∨ 12 < digitVal m1 * 10 + digitVal m2
        · rw [if_pos hr, if_pos hr]
        · rw [if_neg hr, if_neg hr, skip_dash]
          by_cases hb : b = '-'
          · rw [if_pos hb, if_neg (not_not.mpr hb)]
            simp only [getnum_fixed_cons]
            by_cases hd : (48 ≤ d1.toNat ∧ d1.toNat ≤ 57) ∧ (48 ≤ d2.toNat ∧ d2.toNat ≤ 57)
            · rw [if_pos hd, if_neg (not_not.mpr hd)]
              simp only []
              by_cases hrest : rest = []
              · subst hrest
                simp
              · have : rest.length ≠ 0 := by simpa using hrest
                simp [this, hrest]
            · rw [if_neg hd, if_pos hd]
          · rw [if_neg hb, if_pos hb]
      · rw [if_neg hm, if_pos hm]
    · rw [if_neg ha, if_pos ha]
  · have h0 : ¬ (rest.length + 1 + 1 + 1 + 1 + 1 + 1 + 1 + 1 + 1 + 1 < 4) := by omega
    rw [if_neg hy, if_pos hy]
    split <;> rfl

/-- The parser rejects every input shorter than ten characters. -/
theorem timeParse_short (l : List Char) (h : l.length < 10) (t : Time) :
    timeParse ⟨l⟩ ≠ .ok t := by
  rcases l with _ | ⟨y1, _ | ⟨y2, _ | ⟨y3, _ | ⟨y4, l⟩⟩⟩⟩
  · simp [timeParse]
  · simp [timeParse]
  · simp [timeParse]
  · simp [timeParse]
  · by_cases hy : (48 ≤ y1.toNat ∧ y1.toNat ≤ 57) ∧ (48 ≤ y2.toNat ∧ y2.toNat ≤ 57)
          ∧ (48 ≤ y3.toNat ∧ y3.toNat ≤ 57) ∧ (48 ≤ y4.toNat ∧ y4.toNat ≤ 57)
    · rcases l with _ | ⟨a, l⟩
      · simp [timeParse, atoi_four, hy, skip]
      · by_cases ha : a = '-'
        · rcases l with _ | ⟨m1, _ | ⟨m2, l⟩⟩
          · simp [timeParse, atoi_four, hy, skip, ha, getnum_fixed_short]
          · simp [timeParse, atoi_four, hy, skip, ha, getnum_fixed_short]
          · by_cases hm : (48 ≤ m1.toNat ∧ m1.toNat ≤ 57) ∧ (48 ≤ m2.toNat ∧ m2.toNat ≤ 57)
            · by_cases hr : digitVal m1 * 10 + digitVal m2 ≤ 0 ∨ 12 < digitVal m1 * 10 + digitVal m2
              · simp [timeParse, atoi_four, hy, skip, ha, getnum_fixed_cons, hm]
                split_ifs <;> simp_all
              · rcases l with _ | ⟨b, l⟩
                · simp [timeParse, atoi_four, hy, skip, ha, getnum_fixed_cons, hm]
                  split_ifs <;> simp
                · by_cases hb : b = '-'
                  · rcases l with _ | ⟨d1, _ | ⟨d2, l⟩⟩
                    · simp [timeParse, atoi_four, hy, skip, ha, getnum_fixed_cons, hm, hb,
                        getnum_fixed_short]
                      split_ifs <;> simp
                    · simp [timeParse, atoi_four, hy, skip, ha, getnum_fixed_cons, hm, hb,
                        getnum_fixed_short]
                      split_ifs <;> simp
                    · simp at h
                      omega
                  · simp [timeParse, atoi_four, hy, skip, ha, getnum_fixed_cons, hm, hb]
                    split_ifs <;> simp
            · simp [timeParse, atoi_four, hy, skip, ha, getnum_fixed_cons, hm]
        · simp [timeParse, atoi_four, hy, skip, ha]
    · simp [timeParse, atoi_four, hy]

/-- `isDateOnly` rejects every string that is not ten characters long. -/
theorem isDateOnly_length (l : List Char) (h : l.length ≠ 10) : isDateOnly ⟨l⟩ = false := by
  rcases l with _ | ⟨y1, _ | ⟨y2, _ | ⟨y3, _ | ⟨y4, _ | ⟨a, _ | ⟨m1, _ | ⟨m2, _ | ⟨b, _ |
    ⟨d1, _ | ⟨d2, _ | ⟨x, l⟩⟩⟩⟩⟩⟩⟩⟩⟩⟩⟩
  all_goals first
    | rfl
    | exact absurd rfl h

/-- `isDateOnly` on ten characters, as a proposition. -/
theorem isDateOnly_ten (y1 y2 y3 y4 a m1 m2 b d1 d2 : Char) :
    isDateOnly ⟨[y1, y2, y3, y4, a, m1, m2, b, d1, d2]⟩ = true ↔
      ((48 ≤ y1.toNat ∧ y1.toNat ≤ 57) ∧ (48 ≤ y2.toNat ∧ y2.toNat ≤ 57)
          ∧ (48 ≤ y3.toNat ∧ y3.toNat ≤ 57) ∧ (48 ≤ y4.toNat ∧ y4.toNat ≤ 57))
      ∧ a = '-'
      ∧ ((48 ≤ m1.toNat ∧ m1.toNat ≤ 57) ∧ (48 ≤ m2.toNat ∧ m2.toNat ≤ 57))
      ∧ ¬ (digitVal m1 * 10 + digitVal m2 ≤ 0 ∨ 12 < digitVal m1 * 10 + digitVal m2)
      ∧ b = '-'
      ∧ ((48 ≤ d1.toNat ∧ d1.toNat ≤ 57) ∧ (48 ≤ d2.toNat ∧ d2.toNat ≤ 57))
      ∧ ¬ (digitVal d1 * 10 + digitVal d2 < 1 ∨ digitVal d1 * 10 + digitVal d2 >
          daysIn (digitVal m1 * 10 + digitVal m2)
            (digitVal y1 * 1000 + digitVal y2 * 100 + digitVal y3 * 10 + digitVal y4)) := by
  simp only [isDateOnly, List.all_cons, List.all_nil, Bool.and_true, Bool.and_eq_true,
    decide_eq_true_eq, beq_iff_eq, not_or, not_lt, not_le, gt_iff_lt]
  constructor
  · rintro ⟨⟨⟨⟨⟨⟨⟨h1, h2, h3, h4, h5, h6, h7, h8⟩, ha⟩, hb⟩, hm1⟩, hm2⟩, hd1⟩, hd2⟩
    exact ⟨⟨h1, h2, h3, h4⟩, ha, ⟨h5, h6⟩, ⟨by omega, hm2⟩, hb, ⟨h7, h8⟩, by omega, hd2⟩
  · rintro ⟨⟨h1, h2, h3, h4⟩, ha, ⟨h5, h6⟩, ⟨hm1, hm2⟩, hb, ⟨h7, h8⟩, hd1, hd2⟩
    exact ⟨⟨⟨⟨⟨⟨⟨h1, h2, h3, h4, h5, h6, h7, h8⟩, ha⟩, hb⟩, by omega⟩, hm2⟩, by omega⟩, hd2⟩

/-- The parser accepts exactly the strings `isDateOnly` describes. -/
theorem timeParse_eq_ok_iff (value : String) :
    (∃ t, timeParse value = .ok t) ↔ isDateOnly value = true := by
  obtain ⟨l⟩ := value
  by_cases h : l.length < 10
  · rw [isDateOnly_length l (by omega)]
    simp only [Bool.false_eq_true, iff_false, not_exists]
    exact fun t => timeParse_short l h t
  · rcases l with _ | ⟨y1, _ | ⟨y2, _ | ⟨y3, _ | ⟨y4, _ | ⟨a, _ | ⟨m1, _ | ⟨m2, _ | ⟨b, _ |
      ⟨d1, _ | ⟨d2, rest⟩⟩⟩⟩⟩⟩⟩⟩⟩⟩
    iterate 10 exact absurd (by simp) h
    clear h
    rw [timeParse_ten]
    rcases rest with _ | ⟨x, rest⟩
    · rw [isDateOnly_ten]
      constructor
      · rintro ⟨t, ht⟩
        split_ifs at ht with hy ha hm hr hb hd hrest hday
        exact ⟨hy, not_not.mp ha, hm, hr, not_not.mp hb, hd, hday⟩
      · rintro ⟨hy, ha, hm, hr, hb, hd, hday⟩
        rw [if_neg (not_not.mpr hy), if_neg (not_not.mpr ha), if_neg (not_not.mpr hm), if_neg hr,
          if_neg (not_not.mpr hb), if_neg (not_not.mpr hd), if_neg (by simp), if_neg hday]
        exact ⟨_, rfl⟩
    · rw [isDateOnly_length _ (by simp)]
      simp only [Bool.false_eq_true, iff_false, not_exists]
      intro t ht
      split_ifs at ht with hy ha hm hr hb hd hrest
      exact hrest (by simp)

/-- A string the parser rejects is not of the form `isDateOnly` describes, and
conversely. -/
theorem timeParse_eq_error_iff (value : String) :
    (∃ e, timeParse value = .error e) ↔ isDateOnly value = false := by
  rw [← Bool.not_eq_true, ← timeParse_eq_ok_iff]
  cases h : timeParse value with
  | error e => simp
  | ok t => simp

/-! ## Properties of the service -/

/-- C1: `CreateEvent` called with an empty `user_id` returns the empty id and
the validation error on field `user_id` with message `can't be empty`, whatever
the other fields are; called with a non-empty `user_id` and an empty event text
it returns the empty id and the validation error on field `event` with message
`can't be empty`, whatever the date is.  Nothing else changes. -/
theorem C1_CreateEvent_empty_fields {σ : Type} (s : CalendarService σ) (uuidNew : Nat → UUID)
    (event : Event) (w : World σ) :
    (event.UserID = "" →
      s.CreateEvent uuidNew event w
        = (("", some (.validation ⟨"user_id", "can't be empty"⟩)), w)) ∧
    (event.UserID ≠ "" → event.Event = "" →
      s.CreateEvent uuidNew event w
        = (("", some (.validation ⟨"event", "can't be empty"⟩)), w)) := by
  constructor
  · intro hu
    simp [CalendarService.CreateEvent, hu]
  · intro hu he
    simp [CalendarService.CreateEvent, hu, he]

theorem C1_CreateEvent_empty_fields_witness :
    (CalendarService.mk MockRepository).CreateEvent sampleUuidNew
        ⟨"", "1", "event", "2025-09-29"⟩ ⟨(), 0⟩
      = (("", some (.validation ⟨"user_id", "can't be empty"⟩)), ⟨(), 0⟩) ∧
    (CalendarService.mk MockRepository).CreateEvent sampleUuidNew
        ⟨"1", "1", "", "2020:31:05"⟩ ⟨(), 0⟩
      = (("", some (.validation ⟨"event", "can't be empty"⟩)), ⟨(), 0⟩) :=
  ⟨(C1_CreateEvent_empty_fields _ sampleUuidNew ⟨"", "1", "event", "2025-09-29"⟩ ⟨(), 0⟩).1 rfl,
   (C1_CreateEvent_empty_fields _ sampleUuidNew ⟨"1", "1", "", "2020:31:05"⟩ ⟨(), 0⟩).2
     (by decide) rfl⟩

/-- C2: for a date string that parsing with the layout `2006-01-02` rejects, and
with the other required fields non-empty, `CreateEvent` and `UpdateEvent` return
the validation error on field `date` with message `format must be YYYY-MM-DD`,
and each of the three list operations returns a validation error on field
`date`, whose message is `format must be YYYY-MM-DD` when the date string is
non-empty (and `can't be empty` when it is empty). -/
theorem C2_rejected_date {σ : Type} (s : CalendarService σ) (uuidNew : Nat → UUID)
    (userID eventID text date : String) (w : World σ)
    (hdate : ∃ e, timeParse date = .error e) (hu : userID ≠ "") :
    (text ≠ "" →
      s.CreateEvent uuidNew ⟨userID, eventID, text, date⟩ w
        = (("", some (.validation ⟨"date", "format must be YYYY-MM-DD"⟩)), w)) ∧
    (eventID ≠ "" →
      s.UpdateEvent ⟨userID, eventID, text, date⟩ w
        = (some (.validation ⟨"date", "format must be YYYY-MM-DD"⟩), w)) ∧
    s.GetEventsForDay userID date w
      = ((none, some (.validation
          ⟨"date", if date = "" then "can't be empty" else "format must be YYYY-MM-DD"⟩)), w) ∧
    s.GetEventsForWeek userID date w
      = ((none, some (.validation
          ⟨"date", if date = "" then "can't be empty" else "format must be YYYY-MM-DD"⟩)), w) ∧
    s.GetEventsForMonth userID date w
      = ((none, some (.validation
          ⟨"date", if date = "" then "can't be empty" else "format must be YYYY-MM-DD"⟩)), w) := by
  obtain ⟨e, he⟩ := hdate
  refine ⟨?_, ?_, ?_, ?_, ?_⟩
  · intro ht
    simp [CalendarService.CreateEvent, hu, ht, he]
  · intro hi
    simp [CalendarService.UpdateEvent, hu, hi, he]
  · by_cases hd : date = "" <;> simp [CalendarService.GetEventsForDay, hu, hd, he]
  · by_cases hd : date = "" <;> simp [CalendarService.GetEventsForWeek, hu, hd, he]
  · by_cases hd : date = "" <;> simp [CalendarService.GetEventsForMonth, hu, hd, he]

theorem C2_rejected_date_witness :
    ((∃ e, timeParse "2020:31:05" = .error e) ∧ (∃ e, timeParse "20250929" = .error e)
      ∧ (∃ e, timeParse "" = .error e)) ∧
    (CalendarService.mk MockRepository).CreateEvent sampleUuidNew
        ⟨"1", "", "event", "2020:31:05"⟩ ⟨(), 0⟩
      = (("", some (.validation ⟨"date", "format must be YYYY-MM-DD"⟩)), ⟨(), 0⟩) ∧
    (CalendarService.mk MockRepository).UpdateEvent ⟨"1", "1", "event", "2020:31:05"⟩ ⟨(), 0⟩
      = (some (.validation ⟨"date", "format must be YYYY-MM-DD"⟩), ⟨(), 0⟩) ∧
    (CalendarService.mk MockRepository).GetEventsForDay "1" "20250929" ⟨(), 0⟩
      = ((none, some (.validation ⟨"date", "format must be YYYY-MM-DD"⟩)), ⟨(), 0⟩) ∧
    (CalendarService.mk MockRepository).GetEventsForWeek "1" "" ⟨(), 0⟩
      = ((none, some (.validation ⟨"date", "can't be empty"⟩)), ⟨(), 0⟩) ∧
    (CalendarService.mk MockRepository).GetEventsForMonth "1" "2025-02-30" ⟨(), 0⟩
      = ((none, some (.validation ⟨"date", "format must be YYYY-MM-DD"⟩)), ⟨(), 0⟩) :=
  ⟨⟨⟨_, rfl⟩, ⟨_, rfl⟩, ⟨_, rfl⟩⟩,
   (C2_rejected_date (CalendarService.mk MockRepository) sampleUuidNew "1" "" "event"
      "2020:31:05" ⟨(), 0⟩ ⟨_, rfl⟩ (by decide)).1 (by decide),
   (C2_rejected_date (CalendarService.mk MockRepository) sampleUuidNew "1" "1" "event"
      "2020:31:05" ⟨(), 0⟩ ⟨_, rfl⟩ (by decide)).2.1 (by decide),
   (C2_rejected_date (CalendarService.mk MockRepository) sampleUuidNew "1" "1" "event"
      "20250929" ⟨(), 0⟩ ⟨_, rfl⟩ (by decide)).2.2.1,
   (C2_rejected_date (CalendarService.mk MockRepository) sampleUuidNew "1" "1" "event"
      "" ⟨(), 0⟩ ⟨_, rfl⟩ (by decide)).2.2.2.1,
   (C2_rejected_date (CalendarService.mk MockRepository) sampleUuidNew "1" "1" "event"
      "2025-02-30" ⟨(), 0⟩ ⟨_, rfl⟩ (by decide)).2.2.2.2⟩

/-- C3: `UpdateEvent` equals the reference definition for every event, every
repository and every state: empty `event_id`, then empty `user_id`, then a date
that is not `YYYY-MM-DD` give the respective validation error; otherwise the
repository's `UpdateEvent` is called once with the event, and the result is
`nil` when it succeeds and a business error when it fails.  The event text is
not inspected: whatever it is (the empty text included), an event with valid
`event_id`, `user_id` and date is handed to the repository, and the update
succeeds when the repository does. -/
theorem C3_UpdateEvent_reference {σ : Type} (s : CalendarService σ) (event : Event)
    (w : World σ) :
    s.UpdateEvent event w = UpdateEventReference s.repo.UpdateEvent event w ∧
    (event.EventID ≠ "" → event.UserID ≠ "" → isDateOnly event.Date = true →
      ((CalendarService.mk (recording s.repo)).UpdateEvent event
          ⟨(w.store, []), w.drawn⟩).2.store.2 = [RepoCall.UpdateEvent event] ∧
      ((s.repo.UpdateEvent event w.store).1 = none → (s.UpdateEvent event w).1 = none)) := by
  constructor
  · unfold CalendarService.UpdateEvent UpdateEventReference
    by_cases hi : event.EventID = ""
    · simp [hi]
    · by_cases hu : event.UserID = ""
      · simp [hi, hu]
      · cases hd : isDateOnly event.Date
        · obtain ⟨e, he⟩ := (timeParse_eq_error_iff event.Date).mpr hd
          simp [hi, hu, he]
        · obtain ⟨t, ht⟩ := (timeParse_eq_ok_iff event.Date).mpr hd
          rcases hr : s.repo.UpdateEvent event w.store with ⟨_ | err, st⟩ <;>
            simp [hi, hu, ht, hr]
  · intro hi hu hd
    obtain ⟨t, ht⟩ := (timeParse_eq_ok_iff event.Date).mpr hd
    constructor
    · rcases hr : s.repo.UpdateEvent event w.store with ⟨_ | err, st⟩ <;>
        simp [CalendarService.UpdateEvent, recording, hi, hu, ht, hr]
    · intro hr
      rcases hr2 : s.repo.UpdateEvent event w.store with ⟨_ | err, st⟩
      · simp [CalendarService.UpdateEvent, hi, hu, ht, hr2]
      · rw [hr2] at hr
        cases hr

theorem C3_UpdateEvent_reference_witness :
    ((CalendarService.mk (recording MockRepository)).UpdateEvent
        ⟨"1", "1", "", "2025-09-29"⟩ ⟨((), []), 0⟩).2.store.2
      = [RepoCall.UpdateEvent ⟨"1", "1", "", "2025-09-29"⟩] ∧
    ((CalendarService.mk MockRepository).UpdateEvent
        ⟨"1", "1", "", "2025-09-29"⟩ ⟨(), 0⟩).1 = none :=
  ⟨((C3_UpdateEvent_reference (CalendarService.mk MockRepository)
      ⟨"1", "1", "", "2025-09-29"⟩ ⟨(), 0⟩).2 (by decide) (by decide) (by decide)).1,
   ((C3_UpdateEvent_reference (CalendarService.mk MockRepository)
      ⟨"1", "1", "", "2025-09-29"⟩ ⟨(), 0⟩).2 (by decide) (by decide) (by decide)).2 rfl⟩

/-- C4: on the input of the test case `invalid event2` of
`TestCalendarService_UpdateEvent` (`user_id` `1`, `event_id` `1`, empty event
text, date `2025-09-29`, a repository that always succeeds) `UpdateEvent` calls
the repository and returns `nil`; it does not return the validation error on
field `event` that the test expects, while `CreateEvent` on the same fields
does. -/
theorem C4_UpdateEvent_accepts_empty_event_text :
    (CalendarService.mk (recording MockRepository)).UpdateEvent
        ⟨"1", "1", "", "2025-09-29"⟩ ⟨((), []), 0⟩
      = (none, ⟨((), [RepoCall.UpdateEvent ⟨"1", "1", "", "2025-09-29"⟩]), 0⟩) ∧
    ((CalendarService.mk MockRepository).UpdateEvent ⟨"1", "1", "", "2025-09-29"⟩ ⟨(), 0⟩).1
      ≠ some (.validation ⟨"event", "can't be empty"⟩) ∧
    ((CalendarService.mk MockRepository).CreateEvent sampleUuidNew
        ⟨"1", "1", "", "2025-09-29"⟩ ⟨(), 0⟩).1.2
      = some (.validation ⟨"event", "can't be empty"⟩) :=
  ⟨rfl, by decide, rfl⟩

/-- C5: `DeleteEvent` returns the validation error on field `event_id` with
message `event id can't be empty` if and only if the id is the empty string; for
a non-empty id it calls the repository's `DeleteEvent` exactly once, with that
id, and returns `nil` exactly when that call succeeds. -/
theorem C5_DeleteEvent {σ : Type} (s : CalendarService σ) (eventID : String) (w : World σ) :
    ((s.DeleteEvent eventID w).1
        = some (.validation ⟨"event_id", "event id can't be empty"⟩) ↔ eventID = "") ∧
    (eventID ≠ "" →
      ((CalendarService.mk (recording s.repo)).DeleteEvent eventID
          ⟨(w.store, []), w.drawn⟩).2.store.2 = [RepoCall.DeleteEvent eventID] ∧
      ((s.DeleteEvent eventID w).1 = none ↔ (s.repo.DeleteEvent eventID w.store).1 = none) ∧
      (s.DeleteEvent eventID w).2 = ⟨(s.repo.DeleteEvent eventID w.store).2, w.drawn⟩) := by
  constructor
  · by_cases hi : eventID = ""
    · simp [CalendarService.DeleteEvent, hi]
    · rcases hr : s.repo.DeleteEvent eventID w.store with ⟨_ | err, st⟩ <;>
        simp [CalendarService.DeleteEvent, hi, hr]
  · intro hi
    rcases hr : s.repo.DeleteEvent eventID w.store with ⟨_ | err, st⟩ <;>
      simp [CalendarService.DeleteEvent, recording, hi, hr]

theorem C5_DeleteEvent_witness :
    ((CalendarService.mk (recording MockRepository)).DeleteEvent "1"
        ⟨((), []), 0⟩).2.store.2 = [RepoCall.DeleteEvent "1"] ∧
    (((CalendarService.mk MockRepository).DeleteEvent "1" ⟨(), 0⟩).1 = none ↔
      (MockRepository.DeleteEvent "1" ()).1 = none) ∧
    ((CalendarService.mk MockRepository).DeleteEvent "1" ⟨(), 0⟩).2
      = ⟨(MockRepository.DeleteEvent "1" ()).2, 0⟩ :=
  (C5_DeleteEvent (CalendarService.mk MockRepository) "1" ⟨(), 0⟩).2 (by decide)

/-- C6: `GetEventsForDay` with an empty `user_id` returns the validation error
on field `user_id` with message `can't be empty`, whatever the date; with a
non-empty `user_id` and the empty date string it returns the validation error on
field `date` with message `can't be empty`; with a non-empty `user_id` and a
valid `YYYY-MM-DD` date the date parses, and when the repository query for the
parsed date succeeds no error is returned. -/
theorem C6_GetEventsForDay {σ : Type} (s : CalendarService σ) (userID date : String)
    (w : World σ) :
    (userID = "" →
      (s.GetEventsForDay userID date w).1
        = (none, some (.validation ⟨"user_id", "can't be empty"⟩))) ∧
    (userID ≠ "" → date = "" →
      (s.GetEventsForDay userID date w).1
        = (none, some (.validation ⟨"date", "can't be empty"⟩))) ∧
    (userID ≠ "" → isDateOnly date = true →
      ∃ t, timeParse date = .ok t ∧
        ((s.repo.GetEventsForDay userID t w.store).1.2 = none →
          (s.GetEventsForDay userID date w).1.2 = none)) := by
  refine ⟨?_, ?_, ?_⟩
  · intro hu
    simp [CalendarService.GetEventsForDay, hu]
  · intro hu hd
    simp [CalendarService.GetEventsForDay, hu, hd]
  · intro hu hd
    obtain ⟨t, ht⟩ := (timeParse_eq_ok_iff date).mpr hd
    have hne : date ≠ "" := by
      rintro rfl
      exact absurd hd (by decide)
    refine ⟨t, ht, ?_⟩
    intro hr
    rcases hq : s.repo.GetEventsForDay userID t w.store with ⟨⟨_ | evs, _ | err⟩, st⟩ <;>
      simp_all [CalendarService.GetEventsForDay]

theorem C6_GetEventsForDay_witness :
    ((CalendarService.mk MockRepository).GetEventsForDay "" "2025-09-29" ⟨(), 0⟩).1
      = (none, some (.validation ⟨"user_id", "can't be empty"⟩)) ∧
    ((CalendarService.mk MockRepository).GetEventsForDay "1" "" ⟨(), 0⟩).1
      = (none, some (.validation ⟨"date", "can't be empty"⟩)) ∧
    (∃ t, timeParse "2025-09-29" = .ok t ∧
      ((MockRepository.GetEventsForDay "1" t ()).1.2 = none →
        ((CalendarService.mk MockRepository).GetEventsForDay "1" "2025-09-29" ⟨(), 0⟩).1.2
          = none)) :=
  ⟨(C6_GetEventsForDay (CalendarService.mk MockRepository) "" "2025-09-29" ⟨(), 0⟩).1 rfl,
   (C6_GetEventsForDay (CalendarService.mk MockRepository) "1" "" ⟨(), 0⟩).2.1 (by decide) rfl,
   (C6_GetEventsForDay (CalendarService.mk MockRepository) "1" "2025-09-29" ⟨(), 0⟩).2.2
     (by decide) (by decide)⟩

/-- C7: for each of the six service operations and every input that passes its
validation, when the repository call returns an error `e` the service returns
the business error whose message is exactly `e.Error()` (so never a validation
error and never `nil`), with the empty id or the `nil` slice; and the text of
that business error is `business error: ` followed by `e.Error()`. -/
theorem C7_repository_failure_is_business_error {σ : Type} (s : CalendarService σ)
    (uuidNew : Nat → UUID) (event : Event) (userID dateStr eventID : String) (w : World σ)
    (e : GoError) (st : σ) :
    (event.UserID ≠ "" → event.Event ≠ "" → isDateOnly event.Date = true →
      s.repo.CreateEvent { event with EventID := (uuidNew w.drawn).String } w.store
        = (some e, st) →
      (s.CreateEvent uuidNew event w).1 = ("", some (.business ⟨e.Error⟩))) ∧
    (event.EventID ≠ "" → event.UserID ≠ "" → isDateOnly event.Date = true →
      s.repo.UpdateEvent event w.store = (some e, st) →
      (s.UpdateEvent event w).1 = some (.business ⟨e.Error⟩)) ∧
    (eventID ≠ "" → s.repo.DeleteEvent eventID w.store = (some e, st) →
      (s.DeleteEvent eventID w).1 = some (.business ⟨e.Error⟩)) ∧
    (userID ≠ "" → dateStr ≠ "" → ∀ t, timeParse dateStr = .ok t →
      (∀ events, s.repo.GetEventsForDay userID t w.store = ((events, some e), st) →
        (s.GetEventsForDay userID dateStr w).1 = (none, some (.business ⟨e.Error⟩))) ∧
      (∀ events, s.repo.GetEventsForWeek userID t w.store = ((events, some e), st) →
        (s.GetEventsForWeek userID dateStr w).1 = (none, some (.business ⟨e.Error⟩))) ∧
      (∀ events, s.repo.GetEventsForMonth userID t w.store = ((events, some e), st) →
        (s.GetEventsForMonth userID dateStr w).1 = (none, some (.business ⟨e.Error⟩)))) ∧
    (GoError.business ⟨e.Error⟩).Error = "business error: " ++ e.Error := by
  refine ⟨?_, ?_, ?_, ?_, rfl⟩
  · intro hu he hd hr
    obtain ⟨t, ht⟩ := (timeParse_eq_ok_iff event.Date).mpr hd
    simp [CalendarService.CreateEvent, hu, he, ht, hr]
  · intro hi hu hd hr
    obtain ⟨t, ht⟩ := (timeParse_eq_ok_iff event.Date).mpr hd
    simp [CalendarService.UpdateEvent, hi, hu, ht, hr]
  · intro hi hr
    simp [CalendarService.DeleteEvent, hi, hr]
  · intro hu hd t ht
    refine ⟨?_, ?_, ?_⟩
    · intro events hr
      simp [CalendarService.GetEventsForDay, hu, hd, ht, hr]
    · intro events hr
      simp [CalendarService.GetEventsForWeek, hu, hd, ht, hr]
    · intro events hr
      simp [CalendarService.GetEventsForMonth, hu, hd, ht, hr]

theorem C7_repository_failure_is_business_error_witness :
    ((CalendarService.mk (stubRepository (some (.text "connection refused")) none)).CreateEvent
        sampleUuidNew ⟨"1", "1", "event", "2025-09-29"⟩ ⟨(), 0⟩).1
      = ("", some (.business ⟨"connection refused"⟩)) ∧
    ((CalendarService.mk (stubRepository (some (.text "connection refused")) none)).UpdateEvent
        ⟨"1", "1", "event", "2025-09-29"⟩ ⟨(), 0⟩).1
      = some (.business ⟨"connection refused"⟩) ∧
    ((CalendarService.mk (stubRepository (some (.text "connection refused")) none)).DeleteEvent
        "1" ⟨(), 0⟩).1
      = some (.business ⟨"connection refused"⟩) ∧
    ((CalendarService.mk (stubRepository (some (.text "connection refused")) none)).GetEventsForDay
        "1" "2025-09-29" ⟨(), 0⟩).1
      = (none, some (.business ⟨"connection refused"⟩)) ∧
    ((CalendarService.mk (stubRepository (some (.text "connection refused")) none)).GetEventsForWeek
        "1" "2025-09-29" ⟨(), 0⟩).1
      = (none, some (.business ⟨"connection refused"⟩)) ∧
    ((CalendarService.mk (stubRepository (some (.text "connection refused")) none)).GetEventsForMonth
        "1" "2025-09-29" ⟨(), 0⟩).1
      = (none, some (.business ⟨"connection refused"⟩)) ∧
    (GoError.business ⟨"connection refused"⟩).Error = "business error: connection refused" :=
  have h := C7_repository_failure_is_business_error
    (CalendarService.mk (stubRepository (some (.text "connection refused")) none))
    sampleUuidNew ⟨"1", "1", "event", "2025-09-29"⟩ "1" "2025-09-29" "1" ⟨(), 0⟩
    (.text "connection refused") ()
  have hl := h.2.2.2.1 (by decide) (by decide) ⟨2025, 9, 29, 0, 0, 0⟩ rfl
  ⟨h.1 (by decide) (by decide) (by decide) rfl,
   h.2.1 (by decide) (by decide) (by decide) rfl,
   h.2.2.1 (by decide) rfl,
   hl.1 none rfl, hl.2.1 none rfl, hl.2.2 none rfl,
   h.2.2.2.2⟩

/-! ## Properties of `handleError` -/

theorem asValidation_eq_head (e : GoError) :
    e.asValidation = (validationErrorsOf (some e)).head? := by
  unfold validationErrorsOf
  induction e with
  | validation v => rfl
  | business b => rfl
  | notFound n => rfl
  | text msg => rfl
  | wrap msg inner ih => simpa [GoError.asValidation, GoError.unwrapTree] using ih
  | join first second ih1 ih2 =>
    simp only [GoError.asValidation, GoError.unwrapTree, List.filterMap_cons,
      List.filterMap_append] at ih1 ih2 ⊢
    rw [ih1, ih2]
    cases List.filterMap
      (fun x => match x with | GoError.validation v => some v | _ => none) first.unwrapTree <;>
      simp

theorem asBusiness_eq_head (e : GoError) :
    e.asBusiness = (businessErrorsOf (some e)).head? := by
  unfold businessErrorsOf
  induction e with
  | validation v => rfl
  | business b => rfl
  | notFound n => rfl
  | text msg => rfl
  | wrap msg inner ih => simpa [GoError.asBusiness, GoError.unwrapTree] using ih
  | join first second ih1 ih2 =>
    simp only [GoError.asBusiness, GoError.unwrapTree, List.filterMap_cons,
      List.filterMap_append] at ih1 ih2 ⊢
    rw [ih1, ih2]
    cases List.filterMap
      (fun x => match x with | GoError.business b => some b | _ => none) first.unwrapTree <;>
      simp

/-- C8: `handleError` equals the reference mapping for every error value (the
`nil` error included): an error that is or wraps a validation error gives status
400 with `validation_error`, the text `validation error: <field> - <message>`
and the details `<field>: <message>`; otherwise an error that is or wraps a
business error gives 503 with `business_error`, the text `business error: <text>`
and no details; every other error gives 500 with `internal_server_error` and the
fixed text `An unexpected error occurred`.  Details are present exactly in the
validation case. -/
theorem C8_handleError_mapping (err : Option GoError) :
    handleError err = handleErrorReference err ∧
    ((handleError err).body.Details ≠ none ↔ validationErrorsOf err ≠ []) ∧
    (validationErrorsOf err = [] → businessErrorsOf err = [] →
      handleError err
        = ⟨500, ⟨"internal_server_error", "An unexpected error occurred", none⟩⟩) ∧
    (∀ (v : ValidationError) (msg : String),
      handleError (some (.validation v)) = ⟨400, ⟨"validation_error",
        "validation error: " ++ v.Field ++ " - " ++ v.Message, some [(v.Field, v.Message)]⟩⟩ ∧
      handleError (some (.wrap msg (.validation v))) = handleError (some (.validation v))) ∧
    (∀ (b : BusinessError) (msg : String),
      handleError (some (.business b))
        = ⟨503, ⟨"business_error", "business error: " ++ b.Message, none⟩⟩ ∧
      handleError (some (.wrap msg (.business b))) = handleError (some (.business b))) := by
  have key : handleError err = handleErrorReference err := by
    cases err with
    | none => rfl
    | some e =>
      unfold handleError handleErrorReference
      simp only [Option.bind, asValidation_eq_head, asBusiness_eq_head]
      cases validationErrorsOf (some e) with
      | cons v vs => rfl
      | nil =>
        cases businessErrorsOf (some e) with
        | cons b bs => rfl
        | nil => rfl
  refine ⟨key, ?_, ?_, fun v msg => ⟨rfl, rfl⟩, fun b msg => ⟨rfl, rfl⟩⟩
  · rw [key]
    unfold handleErrorReference
    cases validationErrorsOf err with
    | cons v vs => simp
    | nil =>
      cases businessErrorsOf err with
      | cons b bs => simp
      | nil => simp
  · intro hv hb
    rw [key]
    unfold handleErrorReference
    rw [hv, hb]

theorem C8_handleError_mapping_witness :
    handleError (some (.text "pq: connection refused"))
      = ⟨500, ⟨"internal_server_error", "An unexpected error occurred", none⟩⟩ :=
  (C8_handleError_mapping (some (.text "pq: connection refused"))).2.2.1 rfl rfl

/-! ## Validation errors never reach the repository -/

theorem CreateEvent_calls {σ : Type} (s : CalendarService σ) (uuidNew : Nat → UUID)
    (event : Event) (w : World σ) :
    (∃ v, s.CreateEvent uuidNew event w = (("", some (.validation v)), w)) ∨
    ((∀ v, (s.CreateEvent uuidNew event w).1.2 ≠ some (.validation v)) ∧
      (s.CreateEvent uuidNew event w).2 =
        ⟨(s.repo.CreateEvent { event with EventID := (uuidNew w.drawn).String } w.store).2,
          w.drawn + 1⟩) := by
  unfold CalendarService.CreateEvent
  by_cases hu : event.UserID = ""
  · exact Or.inl ⟨_, by rw [if_pos hu]⟩
  · by_cases he : event.Event = ""
    · exact Or.inl ⟨_, by rw [if_neg hu, if_pos he]⟩
    · cases hp : timeParse event.Date with
      | error e => exact Or.inl ⟨_, by rw [if_neg hu, if_neg he]⟩
      | ok t =>
        right
        rcases hr : s.repo.CreateEvent { event with EventID := (uuidNew w.drawn).String }
          w.store with ⟨_ | err, st⟩ <;> simp [hu, he, hr]

theorem UpdateEvent_calls {σ : Type} (s : CalendarService σ) (event : Event) (w : World σ) :
    (∃ v, s.UpdateEvent event w = (some (.validation v), w)) ∨
    ((∀ v, (s.UpdateEvent event w).1 ≠ some (.validation v)) ∧
      (s.UpdateEvent event w).2 = ⟨(s.repo.UpdateEvent event w.store).2, w.drawn⟩) := by
  unfold CalendarService.UpdateEvent
  by_cases hi : event.EventID = ""
  · exact Or.inl ⟨_, by rw [if_pos hi]⟩
  · by_cases hu : event.UserID = ""
    · exact Or.inl ⟨_, by rw [if_neg hi, if_pos hu]⟩
    · cases hp : timeParse event.Date with
      | error e => exact Or.inl ⟨_, by rw [if_neg hi, if_neg hu]⟩
      | ok t =>
        right
        rcases hr : s.repo.UpdateEvent event w.store with ⟨_ | err, st⟩ <;> simp [hi, hu, hr]

theorem DeleteEvent_calls {σ : Type} (s : CalendarService σ) (eventID : String) (w : World σ) :
    (∃ v, s.DeleteEvent eventID w = (some (.validation v), w)) ∨
    ((∀ v, (s.DeleteEvent eventID w).1 ≠ some (.validation v)) ∧
      (s.DeleteEvent eventID w).2 = ⟨(s.repo.DeleteEvent eventID w.store).2, w.drawn⟩) := by
  unfold CalendarService.DeleteEvent
  by_cases hi : eventID = ""
  · exact Or.inl ⟨_, by rw [if_pos hi]⟩
  · right
    rcases hr : s.repo.DeleteEvent eventID w.store with ⟨_ | err, st⟩ <;> simp [hi, hr]

theorem GetEventsForDay_calls {σ : Type} (s : CalendarService σ) (userID dateStr : String)
    (w : World σ) :
    (∃ v, s.GetEventsForDay userID dateStr w = ((none, some (.validation v)), w)) ∨
    (∃ t, timeParse dateStr = .ok t ∧
      (∀ v, (s.GetEventsForDay userID dateStr w).1.2 ≠ some (.validation v)) ∧
      (s.GetEventsForDay userID dateStr w).2 =
        ⟨(s.repo.GetEventsForDay userID t w.store).2, w.drawn⟩) := by
  unfold CalendarService.GetEventsForDay
  by_cases hu : userID = ""
  · exact Or.inl ⟨_, by rw [if_pos hu]⟩
  · by_cases hd : dateStr = ""
    · exact Or.inl ⟨_, by rw [if_neg hu, if_pos hd]⟩
    · cases hp : timeParse dateStr with
      | error e => exact Or.inl ⟨_, by rw [if_neg hu, if_neg hd]⟩
      | ok t =>
        right
        refine ⟨t, rfl, ?_⟩
        rcases hr : s.repo.GetEventsForDay userID t w.store with ⟨⟨_ | evs, _ | err⟩, st⟩ <;>
          simp [hu, hd, hr]

theorem GetEventsForWeek_calls {σ : Type} (s : CalendarService σ) (userID dateStr : String)
    (w : World σ) :
    (∃ v, s.GetEventsForWeek userID dateStr w = ((none, some (.validation v)), w)) ∨
    (∃ t, timeParse dateStr = .ok t ∧
      (∀ v, (s.GetEventsForWeek userID dateStr w).1.2 ≠ some (.validation v)) ∧
      (s.GetEventsForWeek userID dateStr w).2 =
        ⟨(s.repo.GetEventsForWeek userID t w.store).2, w.drawn⟩) := by
  unfold CalendarService.GetEventsForWeek
  by_cases hu : userID = ""
  · exact Or.inl ⟨_, by rw [if_pos hu]⟩
  · by_cases hd : dateStr = ""
    · exact Or.inl ⟨_, by rw [if_neg hu, if_pos hd]⟩
    · cases hp : timeParse dateStr with
      | error e => exact Or.inl ⟨_, by rw [if_neg hu, if_neg hd]⟩
      | ok t =>
        right
        refine ⟨t, rfl, ?_⟩
        rcases hr : s.repo.GetEventsForWeek userID t w.store with ⟨⟨_ | evs, _ | err⟩, st⟩ <;>
          simp [hu, hd, hr]

theorem GetEventsForMonth_calls {σ : Type} (s : CalendarService σ) (userID dateStr : String)
    (w : World σ) :
    (∃ v, s.GetEventsForMonth userID dateStr w = ((none, some (.validation v)), w)) ∨
    (∃ t, timeParse dateStr = .ok t ∧
      (∀ v, (s.GetEventsForMonth userID dateStr w).1.2 ≠ some (.validation v)) ∧
      (s.GetEventsForMonth userID dateStr w).2 =
        ⟨(s.repo.GetEventsForMonth userID t w.store).2, w.drawn⟩) := by
  unfold CalendarService.GetEventsForMonth
  by_cases hu : userID = ""
  · exact Or.inl ⟨_, by rw [if_pos hu]⟩
  · by_cases hd : dateStr = ""
    · exact Or.inl ⟨_, by rw [if_neg hu, if_pos hd]⟩
    · cases hp : timeParse dateStr with
      | error e => exact Or.inl ⟨_, by rw [if_neg hu, if_neg hd]⟩
      | ok t =>
        right
        refine ⟨t, rfl, ?_⟩
        rcases hr : s.repo.GetEventsForMonth userID t w.store with ⟨⟨_ | evs, _ | err⟩, st⟩ <;>
          simp [hu, hd, hr]

/-- C9: for each of the six service operations and every input, an operation
that returns a validation error leaves the state exactly as it was (no
identifier drawn, the store untouched); and run against any repository that
records its calls, every operation adds at most one call to the record, and none
when it returns a validation error. -/
theorem C9_validation_gate {σ : Type} (s : CalendarService σ) (uuidNew : Nat → UUID)
    (event : Event) (userID dateStr eventID : String) (w : World σ) (log : List RepoCall) :
    ((∀ v, (s.CreateEvent uuidNew event w).1.2 = some (.validation v) →
      (s.CreateEvent uuidNew event w).2 = w) ∧
    (∀ v, (s.UpdateEvent event w).1 = some (.validation v) →
      (s.UpdateEvent event w).2 = w) ∧
    (∀ v, (s.DeleteEvent eventID w).1 = some (.validation v) →
      (s.DeleteEvent eventID w).2 = w) ∧
    (∀ v, (s.GetEventsForDay userID dateStr w).1.2 = some (.validation v) →
      (s.GetEventsForDay userID dateStr w).2 = w) ∧
    (∀ v, (s.GetEventsForWeek userID dateStr w).1.2 = some (.validation v) →
      (s.GetEventsForWeek userID dateStr w).2 = w) ∧
    (∀ v, (s.GetEventsForMonth userID dateStr w).1.2 = some (.validation v) →
      (s.GetEventsForMonth userID dateStr w).2 = w)) ∧
    (∃ calls, calls.length ≤ 1 ∧
      ((CalendarService.mk (recording s.repo)).CreateEvent uuidNew event
          ⟨(w.store, log), w.drawn⟩).2.store.2 = log ++ calls ∧
      ∀ v, ((CalendarService.mk (recording s.repo)).CreateEvent uuidNew event
          ⟨(w.store, log), w.drawn⟩).1.2 = some (.validation v) → calls = []) ∧
    (∃ calls, calls.length ≤ 1 ∧
      ((CalendarService.mk (recording s.repo)).UpdateEvent event
          ⟨(w.store, log), w.drawn⟩).2.store.2 = log ++ calls ∧
      ∀ v, ((CalendarService.mk (recording s.repo)).UpdateEvent event
          ⟨(w.store, log), w.drawn⟩).1 = some (.validation v) → calls = []) ∧
    (∃ calls, calls.length ≤ 1 ∧
      ((CalendarService.mk (recording s.repo)).DeleteEvent eventID
          ⟨(w.store, log), w.drawn⟩).2.store.2 = log ++ calls ∧
      ∀ v, ((CalendarService.mk (recording s.repo)).DeleteEvent eventID
          ⟨(w.store, log), w.drawn⟩).1 = some (.validation v) → calls = []) ∧
    (∃ calls, calls.length ≤ 1 ∧
      ((CalendarService.mk (recording s.repo)).GetEventsForDay userID dateStr
          ⟨(w.store, log), w.drawn⟩).2.store.2 = log ++ calls ∧
      ∀ v, ((CalendarService.mk (recording s.repo)).GetEventsForDay userID dateStr
          ⟨(w.store, log), w.drawn⟩).1.2 = some (.validation v) → calls = []) ∧
    (∃ calls, calls.length ≤ 1 ∧
      ((CalendarService.mk (recording s.repo)).GetEventsForWeek userID dateStr
          ⟨(w.store, log), w.drawn⟩).2.store.2 = log ++ calls ∧
      ∀ v, ((CalendarService.mk (recording s.repo)).GetEventsForWeek userID dateStr
          ⟨(w.store, log), w.drawn⟩).1.2 = some (.validation v) → calls = []) ∧
    (∃ calls, calls.length ≤ 1 ∧
      ((CalendarService.mk (recording s.repo)).GetEventsForMonth userID dateStr
          ⟨(w.store, log), w.drawn⟩).2.store.2 = log ++ calls ∧
      ∀ v, ((CalendarService.mk (recording s.repo)).GetEventsForMonth userID dateStr
          ⟨(w.store, log), w.drawn⟩).1.2 = some (.validation v) → calls = []) := by
  refine ⟨⟨?_, ?_, ?_, ?_, ?_, ?_⟩, ?_, ?_, ?_, ?_, ?_, ?_⟩
  · intro v hv
    rcases CreateEvent_calls s uuidNew event w with ⟨v2, h⟩ | ⟨hne, _⟩
    · rw [h]
    · exact absurd hv (hne v)
  · intro v hv
    rcases UpdateEvent_calls s event w with ⟨v2, h⟩ | ⟨hne, _⟩
    · rw [h]
    · exact absurd hv (hne v)
  · intro v hv
    rcases DeleteEvent_calls s eventID w with ⟨v2, h⟩ | ⟨hne, _⟩
    · rw [h]
    · exact absurd hv (hne v)
  · intro v hv
    rcases GetEventsForDay_calls s userID dateStr w with ⟨v2, h⟩ | ⟨t, _, hne, _⟩
    · rw [h]
    · exact absurd hv (hne v)
  · intro v hv
    rcases GetEventsForWeek_calls s userID dateStr w with ⟨v2, h⟩ | ⟨t, _, hne, _⟩
    · rw [h]
    · exact absurd hv (hne v)
  · intro v hv
    rcases GetEventsForMonth_calls s userID dateStr w with ⟨v2, h⟩ | ⟨t, _, hne, _⟩
    · rw [h]
    · exact absurd hv (hne v)
  · rcases CreateEvent_calls (CalendarService.mk (recording s.repo)) uuidNew event
      ⟨(w.store, log), w.drawn⟩ with ⟨v2, h⟩ | ⟨hne, h⟩
    · exact ⟨[], by simp, by rw [h]; simp, fun _ _ => rfl⟩
    · exact ⟨[_], by simp, by rw [h]; rfl, fun v hv => absurd hv (hne v)⟩
  · rcases UpdateEvent_calls (CalendarService.mk (recording s.repo)) event
      ⟨(w.store, log), w.drawn⟩ with ⟨v2, h⟩ | ⟨hne, h⟩
    · exact ⟨[], by simp, by rw [h]; simp, fun _ _ => rfl⟩
    · exact ⟨[_], by simp, by rw [h]; rfl, fun v hv => absurd hv (hne v)⟩
  · rcases DeleteEvent_calls (CalendarService.mk (recording s.repo)) eventID
      ⟨(w.store, log), w.drawn⟩ with ⟨v2, h⟩ | ⟨hne, h⟩
    · exact ⟨[], by simp, by rw [h]; simp, fun _ _ => rfl⟩
    · exact ⟨[_], by simp, by rw [h]; rfl, fun v hv => absurd hv (hne v)⟩
  · rcases GetEventsForDay_calls (CalendarService.mk (recording s.repo)) userID dateStr
      ⟨(w.store, log), w.drawn⟩ with ⟨v2, h⟩ | ⟨t, _, hne, h⟩
    · exact ⟨[], by simp, by rw [h]; simp, fun _ _ => rfl⟩
    · exact ⟨[_], by simp, by rw [h]; rfl, fun v hv => absurd hv (hne v)⟩
  · rcases GetEventsForWeek_calls (CalendarService.mk (recording s.repo)) userID dateStr
      ⟨(w.store, log), w.drawn⟩ with ⟨v2, h⟩ | ⟨t, _, hne, h⟩
    · exact ⟨[], by simp, by rw [h]; simp, fun _ _ => rfl⟩
    · exact ⟨[_], by simp, by rw [h]; rfl, fun v hv => absurd hv (hne v)⟩
  · rcases GetEventsForMonth_calls (CalendarService.mk (recording s.repo)) userID dateStr
      ⟨(w.store, log), w.drawn⟩ with ⟨v2, h⟩ | ⟨t, _, hne, h⟩
    · exact ⟨[], by simp, by rw [h]; simp, fun _ _ => rfl⟩
    · exact ⟨[_], by simp, by rw [h]; rfl, fun v hv => absurd hv (hne v)⟩

/-! ## Identifiers -/

theorem hexDigit_injective : ∀ i j : Fin 16, hexDigit i.val = hexDigit j.val → i = j := by
  decide

theorem encodeHex_length (l : List (Fin 256)) : (encodeHex l).length = 2 * l.length := by
  induction l with
  | nil => rfl
  | cons b bs ih => simp [encodeHex, ih]; omega

theorem encodeHex_injective : ∀ l₁ l₂ : List (Fin 256), encodeHex l₁ = encodeHex l₂ → l₁ = l₂
  | [], [], _ => rfl
  | [], _ :: _, h => by simp [encodeHex] at h
  | _ :: _, [], h => by simp [encodeHex] at h
  | a :: as, b :: bs, h => by
    simp only [encodeHex, List.cons.injEq] at h
    obtain ⟨h1, h2, h3⟩ := h
    have hq := hexDigit_injective ⟨a.val / 16, by omega⟩ ⟨b.val / 16, by omega⟩ h1
    have hr := hexDigit_injective ⟨a.val % 16, by omega⟩ ⟨b.val % 16, by omega⟩ h2
    have hq2 : a.val / 16 = b.val / 16 := by simpa using congrArg Fin.val hq
    have hr2 : a.val % 16 = b.val % 16 := by simpa using congrArg Fin.val hr
    have hab : a = b := Fin.ext (by omega)
    rw [hab, encodeHex_injective as bs h3]

theorem list_split_uuid {α : Type} (l : List α) :
    l = l.take 4 ++ ((l.drop 4).take 2 ++ ((l.drop 6).take 2 ++ ((l.drop 8).take 2
      ++ l.drop 10))) := by
  have h1 := List.take_append_drop 4 l
  have h2 := List.take_append_drop 2 (l.drop 4)
  have h3 := List.take_append_drop 2 (l.drop 6)
  have h4 := List.take_append_drop 2 (l.drop 8)
  rw [List.drop_drop] at h2 h3 h4
  simp only [Nat.reduceAdd] at h2 h3 h4
  rw [h4, h3, h2, h1]

/-- `UUID.String()` is never the empty string. -/
theorem UUID.String_ne_empty (u : UUID) : u.String ≠ "" := by
  intro h
  have h2 := congrArg String.data h
  simp [UUID.String] at h2

/-- Different UUIDs have different string forms. -/
theorem UUID.String_injective (u v : UUID) (h : u.String = v.String) : u = v := by
  obtain ⟨ub, us⟩ := u
  obtain ⟨vb, vs⟩ := v
  have h2 := congrArg String.data h
  simp only [UUID.String, List.append_assoc, List.cons_append] at h2
  have l1 : (encodeHex (ub.take 4)).length = (encodeHex (vb.take 4)).length := by
    simp [encodeHex_length, us, vs]
  obtain ⟨e1, h3⟩ := List.append_inj h2 l1
  simp only [List.cons.injEq, true_and] at h3
  have l2 : (encodeHex ((ub.drop 4).take 2)).length = (encodeHex ((vb.drop 4).take 2)).length := by
    simp [encodeHex_length, us, vs]
  obtain ⟨e2, h4⟩ := List.append_inj h3 l2
  simp only [List.cons.injEq, true_and] at h4
  have l3 : (encodeHex ((ub.drop 6).take 2)).length = (encodeHex ((vb.drop 6).take 2)).length := by
    simp [encodeHex_length, us, vs]
  obtain ⟨e3, h5⟩ := List.append_inj h4 l3
  simp only [List.cons.injEq, true_and] at h5
  have l4 : (encodeHex ((ub.drop 8).take 2)).length = (encodeHex ((vb.drop 8).take 2)).length := by
    simp [encodeHex_length, us, vs]
  obtain ⟨e4, h6⟩ := List.append_inj h5 l4
  simp only [List.cons.injEq, true_and] at h6
  have hb : ub = vb := by
    rw [list_split_uuid ub, list_split_uuid vb, encodeHex_injective _ _ e1,
      encodeHex_injective _ _ e2, encodeHex_injective _ _ e3, encodeHex_injective _ _ e4,
      encodeHex_injective _ _ h6]
  subst hb
  rfl

/-- A successful `CreateEvent` returns the identifier drawn for this call. -/
theorem CreateEvent_success_id {σ : Type} (s : CalendarService σ) (uuidNew : Nat → UUID)
    (event : Event) (w : World σ) (id : String)
    (h : (s.CreateEvent uuidNew event w).1 = (id, none)) : id = (uuidNew w.drawn).String := by
  unfold CalendarService.CreateEvent at h
  by_cases hu : event.UserID = ""
  · simp [hu] at h
  · by_cases he : event.Event = ""
    · simp [hu, he] at h
    · cases hp : timeParse event.Date with
      | error e => simp [hu, he, hp] at h
      | ok t =>
        rcases hr : s.repo.CreateEvent { event with EventID := (uuidNew w.drawn).String }
          w.store with ⟨_ | err, st⟩
        · simp [hu, he, hp, hr] at h
          exact h.symm
        · simp [hu, he, hp, hr] at h

/-- No operation of the service lowers the count of identifiers drawn. -/
theorem drawn_monotone {σ : Type} (s : CalendarService σ) (uuidNew : Nat → UUID)
    (event : Event) (userID dateStr eventID : String) (w : World σ) :
    w.drawn ≤ (s.CreateEvent uuidNew event w).2.drawn ∧
    w.drawn ≤ (s.UpdateEvent event w).2.drawn ∧
    w.drawn ≤ (s.DeleteEvent eventID w).2.drawn ∧
    w.drawn ≤ (s.GetEventsForDay userID dateStr w).2.drawn ∧
    w.drawn ≤ (s.GetEventsForWeek userID dateStr w).2.drawn ∧
    w.drawn ≤ (s.GetEventsForMonth userID dateStr w).2.drawn := by
  refine ⟨?_, ?_, ?_, ?_, ?_, ?_⟩
  · rcases CreateEvent_calls s uuidNew event w with ⟨v, h⟩ | ⟨_, h⟩ <;> rw [h]
    exact Nat.le_succ _
  · rcases UpdateEvent_calls s event w with ⟨v, h⟩ | ⟨_, h⟩ <;> rw [h]
  · rcases DeleteEvent_calls s eventID w with ⟨v, h⟩ | ⟨_, h⟩ <;> rw [h]
  · rcases GetEventsForDay_calls s userID dateStr w with ⟨v, h⟩ | ⟨_, _, _, h⟩ <;> rw [h]
  · rcases GetEventsForWeek_calls s userID dateStr w with ⟨v, h⟩ | ⟨_, _, _, h⟩ <;> rw [h]
  · rcases GetEventsForMonth_calls s userID dateStr w with ⟨v, h⟩ | ⟨_, _, _, h⟩ <;> rw [h]

/-- C10: for every event that passes the validation of `CreateEvent`, whatever
`event_id` the client supplied: the repository receives exactly one call, with
the event whose `event_id` is the newly generated identifier and whose
`user_id`, event text and date are unchanged; the identifier is non-empty; when
the repository succeeds the returned id is that identifier; and if the
generator has not repeated a value among the identifiers drawn so far, a second
successful `CreateEvent` made in any later state returns a different id. -/
theorem C10_CreateEvent_fresh_identifier {σ : Type} (s : CalendarService σ)
    (uuidNew : Nat → UUID) (event : Event) (w : World σ)
    (hu : event.UserID ≠ "") (he : event.Event ≠ "") (hd : isDateOnly event.Date = true) :
    ((CalendarService.mk (recording s.repo)).CreateEvent uuidNew event
        ⟨(w.store, []), w.drawn⟩).2.store.2
      = [RepoCall.CreateEvent
          ⟨event.UserID, (uuidNew w.drawn).String, event.Event, event.Date⟩] ∧
    (uuidNew w.drawn).String ≠ "" ∧
    ((s.repo.CreateEvent ⟨event.UserID, (uuidNew w.drawn).String, event.Event, event.Date⟩
        w.store).1 = none →
      (s.CreateEvent uuidNew event w).1 = ((uuidNew w.drawn).String, none)) ∧
    (s.CreateEvent uuidNew event w).2.drawn = w.drawn + 1 ∧
    (∀ (s2 : CalendarService σ) (event2 : Event) (w2 : World σ) (id1 id2 : String),
        (∀ i j, i < j → j ≤ w2.drawn → uuidNew i ≠ uuidNew j) →
        (s.CreateEvent uuidNew event w).2.drawn ≤ w2.drawn →
        (s.CreateEvent uuidNew event w).1 = (id1, none) →
        (s2.CreateEvent uuidNew event2 w2).1 = (id2, none) → id1 ≠ id2) := by
  obtain ⟨t, ht⟩ := (timeParse_eq_ok_iff event.Date).mpr hd
  have hdr : (s.CreateEvent uuidNew event w).2.drawn = w.drawn + 1 := by
    rcases hr : s.repo.CreateEvent { event with EventID := (uuidNew w.drawn).String }
      w.store with ⟨_ | err, st⟩ <;> simp [CalendarService.CreateEvent, hu, he, ht, hr]
  refine ⟨?_, UUID.String_ne_empty _, ?_, hdr, ?_⟩
  · rcases hr : s.repo.CreateEvent { event with EventID := (uuidNew w.drawn).String }
      w.store with ⟨_ | err, st⟩ <;>
      simp [CalendarService.CreateEvent, recording, hu, he, ht, hr]
  · intro hr
    rcases hr2 : s.repo.CreateEvent ⟨event.UserID, (uuidNew w.drawn).String, event.Event,
      event.Date⟩ w.store with ⟨_ | err, st⟩
    · simp [CalendarService.CreateEvent, hu, he, ht, hr2]
    · rw [hr2] at hr
      cases hr
  · intro s2 event2 w2 id1 id2 hfresh hlater h1 h2 heq
    have e1 := CreateEvent_success_id s uuidNew event w id1 h1
    have e2 := CreateEvent_success_id s2 uuidNew event2 w2 id2 h2
    rw [e1, e2] at heq
    exact hfresh w.drawn w2.drawn (by omega) (le_refl _) (UUID.String_injective _ _ heq)

theorem C10_CreateEvent_fresh_identifier_witness :
    ((CalendarService.mk (recording MockRepository)).CreateEvent sampleUuidNew
        ⟨"1", "1", "event", "2025-09-29"⟩ ⟨((), []), 0⟩).2.store.2
      = [RepoCall.CreateEvent
          ⟨"1", "00000000-0000-0000-0000-000000000000", "event", "2025-09-29"⟩] ∧
    (sampleUuidNew 0).String ≠ "" ∧
    ((CalendarService.mk MockRepository).CreateEvent sampleUuidNew
        ⟨"1", "1", "event", "2025-09-29"⟩ ⟨(), 0⟩).1
      = ("00000000-0000-0000-0000-000000000000", none) ∧
    "00000000-0000-0000-0000-000000000000" ≠ "01010101-0101-0101-0101-010101010101" :=
  have h := C10_CreateEvent_fresh_identifier (CalendarService.mk MockRepository) sampleUuidNew
    ⟨"1", "1", "event", "2025-09-29"⟩ ⟨(), 0⟩ (by decide) (by decide) (by decide)
  ⟨h.1, h.2.1, h.2.2.1 rfl,
   h.2.2.2.2 (CalendarService.mk MockRepository) ⟨"2", "", "standup", "2025-10-01"⟩ ⟨(), 1⟩
     "00000000-0000-0000-0000-000000000000" "01010101-0101-0101-0101-010101010101"
     (by
       intro i j hij hj heq
       have hi0 : i = 0 := by
         have : j ≤ 1 := hj
         omega
       have hj1 : j = 1 := by
         have : j ≤ 1 := hj
         omega
       subst hi0 hj1
       exact absurd (congrArg UUID.bytes heq) (by decide))
     (by decide) rfl rfl⟩

theorem C9_validation_gate_witness :
    ((CalendarService.mk (recording MockRepository)).CreateEvent sampleUuidNew
        ⟨"", "1", "event", "2025-09-29"⟩ ⟨((), []), 0⟩).2 = ⟨((), []), 0⟩ ∧
    ((CalendarService.mk (recording MockRepository)).GetEventsForMonth "1" "2025/09/29"
        ⟨((), []), 0⟩).2 = ⟨((), []), 0⟩ ∧
    (∃ calls, calls.length ≤ 1 ∧
      ((CalendarService.mk (recording MockRepository)).DeleteEvent "1"
          ⟨((), []), 0⟩).2.store.2 = [] ++ calls ∧
      ∀ v, ((CalendarService.mk (recording MockRepository)).DeleteEvent "1"
          ⟨((), []), 0⟩).1 = some (.validation v) → calls = []) :=
  ⟨(C9_validation_gate (CalendarService.mk (recording MockRepository)) sampleUuidNew
      ⟨"", "1", "event", "2025-09-29"⟩ "1" "2025/09/29" "1" ⟨((), []), 0⟩ []).1.1
      ⟨"user_id", "can't be empty"⟩ rfl,
   (C9_validation_gate (CalendarService.mk (recording MockRepository)) sampleUuidNew
      ⟨"", "1", "event", "2025-09-29"⟩ "1" "2025/09/29" "1" ⟨((), []), 0⟩ []).1.2.2.2.2.2
      ⟨"date", "format must be YYYY-MM-DD"⟩ rfl,
   (C9_validation_gate (CalendarService.mk MockRepository) sampleUuidNew
      ⟨"", "1", "event", "2025-09-29"⟩ "1" "2025/09/29" "1" ⟨(), 0⟩ []).2.2.2.1⟩

/-! ## Result sets of the list operations -/

/-- C11: for each of `GetEventsForDay`, `GetEventsForWeek` and
`GetEventsForMonth` and every valid input (a non-empty `user_id` and a date
string that parses): when the repository query returns no error, the service
returns no error and a non-nil collection, which is the explicit empty
collection when the repository's slice is `nil` and the repository's slice
itself, same events in the same order, when it is not. -/
theorem C11_list_results {σ : Type} (s : CalendarService σ) (userID dateStr : String)
    (w : World σ) (t : Time) (hu : userID ≠ "") (hd : timeParse dateStr = .ok t) :
    (∀ events st, s.repo.GetEventsForDay userID t w.store = ((events, none), st) →
      (s.GetEventsForDay userID dateStr w).1.2 = none ∧
      (s.GetEventsForDay userID dateStr w).1.1 ≠ none ∧
      (events = none → (s.GetEventsForDay userID dateStr w).1.1 = some []) ∧
      (∀ l, events = some l → (s.GetEventsForDay userID dateStr w).1.1 = some l)) ∧
    (∀ events st, s.repo.GetEventsForWeek userID t w.store = ((events, none), st) →
      (s.GetEventsForWeek userID dateStr w).1.2 = none ∧
      (s.GetEventsForWeek userID dateStr w).1.1 ≠ none ∧
      (events = none → (s.GetEventsForWeek userID dateStr w).1.1 = some []) ∧
      (∀ l, events = some l → (s.GetEventsForWeek userID dateStr w).1.1 = some l)) ∧
    (∀ events st, s.repo.GetEventsForMonth userID t w.store = ((events, none), st) →
      (s.GetEventsForMonth userID dateStr w).1.2 = none ∧
      (s.GetEventsForMonth userID dateStr w).1.1 ≠ none ∧
      (events = none → (s.GetEventsForMonth userID dateStr w).1.1 = some []) ∧
      (∀ l, events = some l → (s.GetEventsForMonth userID dateStr w).1.1 = some l)) := by
  have hne : dateStr ≠ "" := by
    rintro rfl
    have he : timeParse "" = .error .bad := rfl
    rw [he] at hd
    cases hd
  refine ⟨?_, ?_, ?_⟩
  · intro events st hr
    cases events <;> simp [CalendarService.GetEventsForDay, hu, hne, hd, hr]
  · intro events st hr
    cases events <;> simp [CalendarService.GetEventsForWeek, hu, hne, hd, hr]
  · intro events st hr
    cases events <;> simp [CalendarService.GetEventsForMonth, hu, hne, hd, hr]

theorem C11_list_results_witness :
    (((CalendarService.mk MockRepository).GetEventsForDay "1" "2025-09-29" ⟨(), 0⟩).1.2 = none ∧
      ((CalendarService.mk MockRepository).GetEventsForDay "1" "2025-09-29" ⟨(), 0⟩).1.1
        = some []) ∧
    ((CalendarService.mk (NewCalendarRepository isoReadDate)).GetEventsForMonth "u1"
        "2025-09-01"
        ⟨[⟨"e1", "u1", "standup", ⟨2025, 9, 29, 0, 0, 0⟩⟩,
          ⟨"e2", "u1", "review", ⟨2025, 9, 2, 0, 0, 0⟩⟩], 0⟩).1.1
      = some [⟨"u1", "e1", "standup", "2025-09-29"⟩, ⟨"u1", "e2", "review", "2025-09-02"⟩] :=
  have h1 := (C11_list_results (CalendarService.mk MockRepository) "1" "2025-09-29" ⟨(), 0⟩
    ⟨2025, 9, 29, 0, 0, 0⟩ (by decide) rfl).1 none () rfl
  have h2 := (C11_list_results (CalendarService.mk (NewCalendarRepository isoReadDate)) "u1"
    "2025-09-01"
    ⟨[⟨"e1", "u1", "standup", ⟨2025, 9, 29, 0, 0, 0⟩⟩,
      ⟨"e2", "u1", "review", ⟨2025, 9, 2, 0, 0, 0⟩⟩], 0⟩
    ⟨2025, 9, 1, 0, 0, 0⟩ (by decide) rfl).2.2
    (some [⟨"u1", "e1", "standup", "2025-09-29"⟩, ⟨"u1", "e2", "review", "2025-09-02"⟩])
    _ rfl
  ⟨⟨h1.1, h1.2.2.1 rfl⟩, h2.2.2.2 _ rfl⟩

/-! ## Deleting and updating by `event_id` -/

theorem filter_event_id_eq_nil (rows : List EventRow) (eventID : String)
    (h : ∀ r ∈ rows, r.event_id ≠ eventID) :
    rows.filter (fun r => r.event_id = eventID) = [] := by
  rw [List.filter_eq_nil_iff]
  intro r hr
  simpa using h r hr

theorem filter_event_id_ne_self (rows : List EventRow) (eventID : String)
    (h : ∀ r ∈ rows, r.event_id ≠ eventID) :
    rows.filter (fun r => r.event_id ≠ eventID) = rows := by
  rw [List.filter_eq_self]
  intro r hr
  simpa using h r hr

theorem filter_event_id_length_pos (rows : List EventRow) (eventID : String)
    (h : ∃ r ∈ rows, r.event_id = eventID) :
    (rows.filter (fun r => r.event_id = eventID)).length ≠ 0 := by
  obtain ⟨r, hr, he⟩ := h
  have hm : r ∈ rows.filter (fun r => r.event_id = eventID) := by
    rw [List.mem_filter]
    exact ⟨hr, by simpa using he⟩
  intro h0
  rw [List.length_eq_zero] at h0
  rw [h0] at hm
  cases hm

theorem map_update_self (rows : List EventRow) (eventID : String) (new : EventRow)
    (h : ∀ r ∈ rows, r.event_id ≠ eventID) :
    rows.map (fun r => if r.event_id = eventID then new else r) = rows := by
  induction rows with
  | nil => rfl
  | cons r rs ih =>
    have h1 : r.event_id ≠ eventID := h r (List.mem_cons_self _ _)
    have h2 : ∀ x ∈ rs, x.event_id ≠ eventID := fun x hx => h x (List.mem_cons_of_mem _ hx)
    simp only [List.map_cons, if_neg h1, ih h2]

theorem DeleteEvent_missing (rows : List EventRow) (eventID : String)
    (h : ∀ r ∈ rows, r.event_id ≠ eventID) :
    CalendarRepository.DeleteEvent eventID rows
      = (some (.text ("no event found with id: " ++ eventID)), rows) := by
  unfold CalendarRepository.DeleteEvent
  simp only [filter_event_id_eq_nil rows eventID h, filter_event_id_ne_self rows eventID h,
    List.length_nil, if_true]

theorem UpdateEvent_missing (readDate : String → Except String Time) (rows : List EventRow)
    (event : Event) (date : Time) (hread : readDate event.Date = .ok date)
    (h : ∀ r ∈ rows, r.event_id ≠ event.EventID) :
    CalendarRepository.UpdateEvent readDate event rows
      = (some (.text ("no event found with id: " ++ event.EventID)), rows) := by
  unfold CalendarRepository.UpdateEvent
  simp only [hread, filter_event_id_eq_nil rows event.EventID h,
    map_update_self rows event.EventID _ h, List.length_nil, if_true]

theorem UpdateEvent_unreadable (readDate : String → Except String Time) (rows : List EventRow)
    (event : Event) (msg : String) (hread : readDate event.Date = .error msg) :
    CalendarRepository.UpdateEvent readDate event rows
      = (some (.wrap ("error updating event: " ++ msg) (.text msg)), rows) := by
  unfold CalendarRepository.UpdateEvent
  simp only [hread]

theorem UpdateEvent_existing (readDate : String → Except String Time) (rows : List EventRow)
    (event : Event) (date : Time) (hread : readDate event.Date = .ok date)
    (h : ∃ r ∈ rows, r.event_id = event.EventID) :
    CalendarRepository.UpdateEvent readDate event rows
      = (none, rows.map (fun r =>
          if r.event_id = event.EventID then
            ⟨event.EventID, event.UserID, event.Event, date⟩
          else r)) := by
  have hpos := filter_event_id_length_pos rows event.EventID h
  simp only [CalendarRepository.UpdateEvent, hread, if_neg hpos]

/-- C12, as amended: over the table as a list of rows.
* An `event_id` that matches no row: the repository's `DeleteEvent` returns the
  error `no event found with id: <event_id>` and leaves the table as it was;
  `UpdateEvent` returns an error and leaves the table as it was, the error being
  `no event found with id: <event_id>` when the database reads the event's date
  text and the database's error wrapped as `error updating event: ...` when it
  does not.  For a request that passes the service's validation (non-empty
  `event_id`; for update also a non-empty `user_id` and a valid date) the
  service then returns a business error and the handler answers 503.
* A request with an empty `event_id` (for update also an empty `user_id` or an
  invalid date) gets a validation error and status 400, the table untouched,
  whether or not a row matches.
* An `event_id` that matches a row: `DeleteEvent` succeeds and the table keeps
  exactly the rows with another id, in their order; `UpdateEvent`, when the
  database reads the event's date text, succeeds, every row with that id now
  carries the event's `user_id`, text and date, and every other row is as
  before; when the database does not read the date text it returns the wrapped
  database error and changes nothing. -/
theorem C12_delete_update_by_id (readDate : String → Except String Time)
    (rows : List EventRow) (eventID : String) (event : Event) (drawn : Nat) :
    ((∀ r ∈ rows, r.event_id ≠ eventID) →
      CalendarRepository.DeleteEvent eventID rows
        = (some (.text ("no event found with id: " ++ eventID)), rows) ∧
      (eventID ≠ "" →
        (CalendarService.mk (NewCalendarRepository readDate)).DeleteEvent eventID ⟨rows, drawn⟩
          = (some (.business ⟨"no event found with id: " ++ eventID⟩), ⟨rows, drawn⟩) ∧
        (deleteEventHandler (CalendarService.mk (NewCalendarRepository readDate)) eventID
            ⟨rows, drawn⟩).1
          = ⟨503, .error ⟨"business_error",
              "business error: " ++ ("no event found with id: " ++ eventID), none⟩⟩)) ∧
    ((∀ r ∈ rows, r.event_id ≠ event.EventID) →
      (∃ e, CalendarRepository.UpdateEvent readDate event rows = (some e, rows)) ∧
      (∀ date, readDate event.Date = .ok date →
        CalendarRepository.UpdateEvent readDate event rows
          = (some (.text ("no event found with id: " ++ event.EventID)), rows)) ∧
      (event.EventID ≠ "" → event.UserID ≠ "" → isDateOnly event.Date = true →
        ∃ b : BusinessError,
          (CalendarService.mk (NewCalendarRepository readDate)).UpdateEvent event
              ⟨rows, drawn⟩ = (some (.business b), ⟨rows, drawn⟩) ∧
          (updateEventHandler (CalendarService.mk (NewCalendarRepository readDate)) event
              ⟨rows, drawn⟩).1
            = ⟨503, .error ⟨"business_error", "business error: " ++ b.Message, none⟩⟩ ∧
          (∀ date, readDate event.Date = .ok date →
            b.Message = "no event found with id: " ++ event.EventID))) ∧
    ((eventID = "" →
        (CalendarService.mk (NewCalendarRepository readDate)).DeleteEvent eventID ⟨rows, drawn⟩
          = (some (.validation ⟨"event_id", "event id can't be empty"⟩), ⟨rows, drawn⟩) ∧
        (deleteEventHandler (CalendarService.mk (NewCalendarRepository readDate)) eventID
            ⟨rows, drawn⟩).1.status = 400) ∧
      (event.EventID = "" ∨ event.UserID = "" ∨ isDateOnly event.Date = false →
        (∃ v : ValidationError,
          (CalendarService.mk (NewCalendarRepository readDate)).UpdateEvent event
              ⟨rows, drawn⟩ = (some (.validation v), ⟨rows, drawn⟩)) ∧
        (updateEventHandler (CalendarService.mk (NewCalendarRepository readDate)) event
            ⟨rows, drawn⟩).1.status = 400)) ∧
    ((∃ r ∈ rows, r.event_id = eventID) →
      (CalendarRepository.DeleteEvent eventID rows).1 = none ∧
      (∀ r, r ∈ (CalendarRepository.DeleteEvent eventID rows).2 ↔
        r ∈ rows ∧ r.event_id ≠ eventID) ∧
      (CalendarRepository.DeleteEvent eventID rows).2.Sublist rows) ∧
    ((∃ r ∈ rows, r.event_id = event.EventID) →
      ∀ date, readDate event.Date = .ok date →
        CalendarRepository.UpdateEvent readDate event rows
          = (none, rows.map (fun r =>
              if r.event_id = event.EventID then
                ⟨event.EventID, event.UserID, event.Event, date⟩
              else r))) ∧
    (∀ msg, readDate event.Date = .error msg →
      CalendarRepository.UpdateEvent readDate event rows
        = (some (.wrap ("error updating event: " ++ msg) (.text msg)), rows)) := by
  refine ⟨?_, ?_, ⟨?_, ?_⟩, ?_, ?_, ?_⟩
  · intro h
    have hd := DeleteEvent_missing rows eventID h
    refine ⟨hd, ?_⟩
    intro hne
    have hs : (CalendarService.mk (NewCalendarRepository readDate)).DeleteEvent eventID
        ⟨rows, drawn⟩
        = (some (.business ⟨"no event found with id: " ++ eventID⟩), ⟨rows, drawn⟩) := by
      simp only [CalendarService.DeleteEvent, if_neg hne, NewCalendarRepository, hd]
      rfl
    refine ⟨hs, ?_⟩
    simp only [deleteEventHandler, hs]
    rfl
  · intro h
    have hok : ∀ date, readDate event.Date = .ok date →
        CalendarRepository.UpdateEvent readDate event rows
          = (some (.text ("no event found with id: " ++ event.EventID)), rows) :=
      fun date hread => UpdateEvent_missing readDate rows event date hread h
    refine ⟨?_, hok, ?_⟩
    · cases hread : readDate event.Date with
      | error msg => exact ⟨_, UpdateEvent_unreadable readDate rows event msg hread⟩
      | ok date => exact ⟨_, hok date hread⟩
    · intro hi hne hdate
      obtain ⟨t, ht⟩ := (timeParse_eq_ok_iff event.Date).mpr hdate
      cases hread : readDate event.Date with
      | error msg =>
        have hu := UpdateEvent_unreadable readDate rows event msg hread
        have hs : (CalendarService.mk (NewCalendarRepository readDate)).UpdateEvent event
            ⟨rows, drawn⟩
            = (some (.business ⟨"error updating event: " ++ msg⟩), ⟨rows, drawn⟩) := by
          simp only [CalendarService.UpdateEvent, if_neg hi, if_neg hne, ht,
            NewCalendarRepository, hu]
          rfl
        refine ⟨⟨"error updating event: " ++ msg⟩, hs, ?_, ?_⟩
        · simp only [updateEventHandler, hs]
          rfl
        · intro date hd
          cases hd
      | ok date =>
        have hu := hok date hread
        have hs : (CalendarService.mk (NewCalendarRepository readDate)).UpdateEvent event
            ⟨rows, drawn⟩
            = (some (.business ⟨"no event found with id: " ++ event.EventID⟩),
                ⟨rows, drawn⟩) := by
          simp only [CalendarService.UpdateEvent, if_neg hi, if_neg hne, ht,
            NewCalendarRepository, hu]
          rfl
        refine ⟨⟨"no event found with id: " ++ event.EventID⟩, hs, ?_, fun _ _ => rfl⟩
        simp only [updateEventHandler, hs]
        rfl
  · intro hi
    have hs : (CalendarService.mk (NewCalendarRepository readDate)).DeleteEvent eventID
        ⟨rows, drawn⟩
        = (some (.validation ⟨"event_id", "event id can't be empty"⟩), ⟨rows, drawn⟩) := by
      simp only [CalendarService.DeleteEvent, if_pos hi]
    refine ⟨hs, ?_⟩
    simp only [deleteEventHandler, hs]
    rfl
  · intro hbad
    have hv : ∃ v : ValidationError,
        (CalendarService.mk (NewCalendarRepository readDate)).UpdateEvent event ⟨rows, drawn⟩
          = (some (.validation v), ⟨rows, drawn⟩) := by
      by_cases hi : event.EventID = ""
      · exact ⟨⟨"event_id", "event id can't be empty"⟩,
          by simp only [CalendarService.UpdateEvent, if_pos hi]⟩
      · by_cases hu : event.UserID = ""
        · exact ⟨⟨"user_id", "user id can't be empty"⟩,
            by simp only [CalendarService.UpdateEvent, if_neg hi, if_pos hu]⟩
        · have hdate : isDateOnly event.Date = false := by
            rcases hbad with h | h | h
            · exact absurd h hi
            · exact absurd h hu
            · exact h
          obtain ⟨e, he⟩ := (timeParse_eq_error_iff event.Date).mpr hdate
          exact ⟨⟨"date", "format must be YYYY-MM-DD"⟩,
            by simp only [CalendarService.UpdateEvent, if_neg hi, if_neg hu, he]⟩
    obtain ⟨v, hs⟩ := hv
    refine ⟨⟨v, hs⟩, ?_⟩
    simp only [updateEventHandler, hs]
    rfl
  · intro h
    have hpos := filter_event_id_length_pos rows eventID h
    refine ⟨?_, ?_, ?_⟩
    · simp only [CalendarRepository.DeleteEvent, if_neg hpos]
    · intro r
      simp only [CalendarRepository.DeleteEvent, if_neg hpos, List.mem_filter]
      simp
    · simp only [CalendarRepository.DeleteEvent, if_neg hpos]
      exact List.filter_sublist _
  · intro h date hread
    exact UpdateEvent_existing readDate rows event date hread h
  · intro msg hread
    exact UpdateEvent_unreadable readDate rows event msg hread

theorem C12_delete_update_by_id_witness :
    (CalendarRepository.DeleteEvent "e9"
        [⟨"e1", "u1", "standup", ⟨2025, 9, 29, 0, 0, 0⟩⟩]
      = (some (.text "no event found with id: e9"),
          [⟨"e1", "u1", "standup", ⟨2025, 9, 29, 0, 0, 0⟩⟩]) ∧
      (deleteEventHandler (CalendarService.mk (NewCalendarRepository isoReadDate)) "e9"
          ⟨[⟨"e1", "u1", "standup", ⟨2025, 9, 29, 0, 0, 0⟩⟩], 0⟩).1
        = ⟨503, .error ⟨"business_error", "business error: no event found with id: e9",
            none⟩⟩) ∧
    (CalendarRepository.UpdateEvent isoReadDate ⟨"u1", "e9", "review", "2025-10-01"⟩
        [⟨"e1", "u1", "standup", ⟨2025, 9, 29, 0, 0, 0⟩⟩]
      = (some (.text "no event found with id: e9"),
          [⟨"e1", "u1", "standup", ⟨2025, 9, 29, 0, 0, 0⟩⟩]) ∧
      ∃ b : BusinessError,
        (CalendarService.mk (NewCalendarRepository isoReadDate)).UpdateEvent
            ⟨"u1", "e9", "review", "2025-10-01"⟩
            ⟨[⟨"e1", "u1", "standup", ⟨2025, 9, 29, 0, 0, 0⟩⟩], 0⟩
          = (some (.business b), ⟨[⟨"e1", "u1", "standup", ⟨2025, 9, 29, 0, 0, 0⟩⟩], 0⟩) ∧
        (updateEventHandler (CalendarService.mk (NewCalendarRepository isoReadDate))
            ⟨"u1", "e9", "review", "2025-10-01"⟩
            ⟨[⟨"e1", "u1", "standup", ⟨2025, 9, 29, 0, 0, 0⟩⟩], 0⟩).1
          = ⟨503, .error ⟨"business_error", "business error: " ++ b.Message, none⟩⟩ ∧
        (∀ date, isoReadDate "2025-10-01" = .ok date →
          b.Message = "no event found with id: " ++ "e9")) ∧
    ((deleteEventHandler (CalendarService.mk (NewCalendarRepository isoReadDate)) ""
        ⟨[⟨"e1", "u1", "standup", ⟨2025, 9, 29, 0, 0, 0⟩⟩], 0⟩).1.status = 400 ∧
      (updateEventHandler (CalendarService.mk (NewCalendarRepository isoReadDate))
        ⟨"u1", "e1", "review", "2025-13-01"⟩
        ⟨[⟨"e1", "u1", "standup", ⟨2025, 9, 29, 0, 0, 0⟩⟩], 0⟩).1.status = 400) ∧
    ((CalendarRepository.DeleteEvent "e1"
        [⟨"e1", "u1", "standup", ⟨2025, 9, 29, 0, 0, 0⟩⟩,
          ⟨"e2", "u2", "review", ⟨2025, 9, 30, 0, 0, 0⟩⟩]).1 = none ∧
      (CalendarRepository.DeleteEvent "e1"
        [⟨"e1", "u1", "standup", ⟨2025, 9, 29, 0, 0, 0⟩⟩,
          ⟨"e2", "u2", "review", ⟨2025, 9, 30, 0, 0, 0⟩⟩]).2.Sublist
        [⟨"e1", "u1", "standup", ⟨2025, 9, 29, 0, 0, 0⟩⟩,
          ⟨"e2", "u2", "review", ⟨2025, 9, 30, 0, 0, 0⟩⟩]) ∧
    CalendarRepository.UpdateEvent isoReadDate ⟨"u3", "e1", "retro", "2025-10-01"⟩
        [⟨"e1", "u1", "standup", ⟨2025, 9, 29, 0, 0, 0⟩⟩,
          ⟨"e2", "u2", "review", ⟨2025, 9, 30, 0, 0, 0⟩⟩]
      = (none, [⟨"e1", "u3", "retro", ⟨2025, 10, 1, 0, 0, 0⟩⟩,
          ⟨"e2", "u2", "review", ⟨2025, 9, 30, 0, 0, 0⟩⟩]) ∧
    CalendarRepository.UpdateEvent isoReadDate ⟨"u3", "e1", "retro", "not a date"⟩
        [⟨"e1", "u1", "standup", ⟨2025, 9, 29, 0, 0, 0⟩⟩]
      = (some (.wrap "error updating event: invalid input syntax for type date: not a date"
            (.text "invalid input syntax for type date: not a date")),
          [⟨"e1", "u1", "standup", ⟨2025, 9, 29, 0, 0, 0⟩⟩]) :=
  have hmiss := C12_delete_update_by_id isoReadDate
    [⟨"e1", "u1", "standup", ⟨2025, 9, 29, 0, 0, 0⟩⟩] "e9"
    ⟨"u1", "e9", "review", "2025-10-01"⟩ 0
  have hbad := C12_delete_update_by_id isoReadDate
    [⟨"e1", "u1", "standup", ⟨2025, 9, 29, 0, 0, 0⟩⟩] ""
    ⟨"u1", "e1", "review", "2025-13-01"⟩ 0
  have hhit := C12_delete_update_by_id isoReadDate
    [⟨"e1", "u1", "standup", ⟨2025, 9, 29, 0, 0, 0⟩⟩,
      ⟨"e2", "u2", "review", ⟨2025, 9, 30, 0, 0, 0⟩⟩] "e1"
    ⟨"u3", "e1", "retro", "2025-10-01"⟩ 0
  have hunread := C12_delete_update_by_id isoReadDate
    [⟨"e1", "u1", "standup", ⟨2025, 9, 29, 0, 0, 0⟩⟩] "e1"
    ⟨"u3", "e1", "retro", "not a date"⟩ 0
  have hdel := hhit.2.2.2.1 ⟨_, List.mem_cons_self _ _, rfl⟩
  have hupd := hmiss.2.1 (by decide)
  ⟨⟨(hmiss.1 (by decide)).1, ((hmiss.1 (by decide)).2 (by decide)).2⟩,
   ⟨hupd.2.1 ⟨2025, 10, 1, 0, 0, 0⟩ rfl, hupd.2.2 (by decide) (by decide) (by decide)⟩,
   ⟨(hbad.2.2.1.1 rfl).2, (hbad.2.2.1.2 (Or.inr (Or.inr (by decide)))).2⟩,
   ⟨hdel.1, hdel.2.2⟩,
   hhit.2.2.2.2.1 ⟨_, List.mem_cons_self _ _, rfl⟩ ⟨2025, 10, 1, 0, 0, 0⟩ rfl,
   hunread.2.2.2.2.2 "invalid input syntax for type date: not a date" rfl⟩

/-- C12, as stated, fails in two ways.  The empty `event_id` matches no row of
the table, and the repository asked directly answers `no event found with id: `,
but the service rejects it before the repository is called: the result is a
validation error and status 400, not a business error and 503 (likewise for an
update with an unknown id and an empty `user_id`).  And an update whose date
text the database does not read as a date fails with the database's error
wrapped as `error updating event: ...`: for an `event_id` that matches a row it
does not succeed and overwrites nothing, and for an `event_id` that matches no
row the message is not `no event found with id: <event_id>`. -/
theorem C12_fails_on_empty_id_and_unreadable_date :
    ((∀ r ∈ [(⟨"e1", "u1", "standup", ⟨2025, 9, 29, 0, 0, 0⟩⟩ : EventRow)], r.event_id ≠ "") ∧
      CalendarRepository.DeleteEvent "" [⟨"e1", "u1", "standup", ⟨2025, 9, 29, 0, 0, 0⟩⟩]
        = (some (.text "no event found with id: "),
            [⟨"e1", "u1", "standup", ⟨2025, 9, 29, 0, 0, 0⟩⟩]) ∧
      ((CalendarService.mk (NewCalendarRepository isoReadDate)).DeleteEvent ""
          ⟨[⟨"e1", "u1", "standup", ⟨2025, 9, 29, 0, 0, 0⟩⟩], 0⟩).1
        = some (.validation ⟨"event_id", "event id can't be empty"⟩) ∧
      (deleteEventHandler (CalendarService.mk (NewCalendarRepository isoReadDate)) ""
          ⟨[⟨"e1", "u1", "standup", ⟨2025, 9, 29, 0, 0, 0⟩⟩], 0⟩).1.status = 400 ∧
      (updateEventHandler (CalendarService.mk (NewCalendarRepository isoReadDate))
          ⟨"", "e9", "review", "2025-10-01"⟩
          ⟨[⟨"e1", "u1", "standup", ⟨2025, 9, 29, 0, 0, 0⟩⟩], 0⟩).1.status = 400) ∧
    ((∃ r ∈ [(⟨"e1", "u1", "standup", ⟨2025, 9, 29, 0, 0, 0⟩⟩ : EventRow)], r.event_id = "e1") ∧
      (CalendarRepository.UpdateEvent isoReadDate ⟨"u3", "e1", "retro", "not a date"⟩
          [⟨"e1", "u1", "standup", ⟨2025, 9, 29, 0, 0, 0⟩⟩]).1 ≠ none ∧
      (CalendarRepository.UpdateEvent isoReadDate ⟨"u3", "e1", "retro", "not a date"⟩
          [⟨"e1", "u1", "standup", ⟨2025, 9, 29, 0, 0, 0⟩⟩]).2
        = [⟨"e1", "u1", "standup", ⟨2025, 9, 29, 0, 0, 0⟩⟩] ∧
      (CalendarRepository.UpdateEvent isoReadDate ⟨"u3", "e9", "retro", "not a date"⟩
          [⟨"e1", "u1", "standup", ⟨2025, 9, 29, 0, 0, 0⟩⟩]).1
        ≠ some (.text "no event found with id: e9")) := by
  refine ⟨⟨by decide, by decide, by decide, by decide, by decide⟩,
    ⟨by decide, by decide, by decide, by decide⟩⟩

/-! ## The month window -/

theorem collect_getD (selected : List EventRow) :
    (CalendarRepository.collect selected).getD [] = selected.map CalendarRepository.scan := by
  cases selected <;> rfl

/-- The events `GetEventsForMonth` returns are the scans of the rows of the user
dated from `date` up to and including `date.AddDate(0, 1, 0)`. -/
theorem GetEventsForMonth_mem (userID : String) (date : Time) (rows : List EventRow)
    (e : Event) :
    e ∈ ((CalendarRepository.GetEventsForMonth userID date rows).1.1).getD [] ↔
      ∃ r ∈ rows, r.user_id = userID ∧ date.abs ≤ r.date.abs ∧
        r.date.abs ≤ (date.AddDate 0 1 0).abs ∧ CalendarRepository.scan r = e := by
  simp only [CalendarRepository.GetEventsForMonth, collect_getD, List.mem_map, List.mem_filter,
    decide_eq_true_eq]
  constructor
  · rintro ⟨r, ⟨hr, hu, h1, h2⟩, he⟩
    exact ⟨r, hr, hu, h1, h2, he⟩
  · rintro ⟨r, hr, hu, h1, h2, he⟩
    exact ⟨r, ⟨hr, hu, h1, h2⟩, he⟩

/-- C13: with one stored event of user `u1` dated 2025-02-01, which is exactly
one calendar month after 2025-01-01, `GetEventsForMonth` for `u1` and start
2025-01-01 returns that event, in the repository and through the service: the
window is closed at its end, not half-open.  The week query does leave out the
event dated on the day after its seven days. -/
theorem C13_GetEventsForMonth_returns_end_of_window :
    Time.AddDate ⟨2025, 1, 1, 0, 0, 0⟩ 0 1 0 = ⟨2025, 2, 1, 0, 0, 0⟩ ∧
    CalendarRepository.GetEventsForMonth "u1" ⟨2025, 1, 1, 0, 0, 0⟩
        [⟨"e1", "u1", "standup", ⟨2025, 2, 1, 0, 0, 0⟩⟩]
      = ((some [⟨"u1", "e1", "standup", "2025-02-01"⟩], none),
          [⟨"e1", "u1", "standup", ⟨2025, 2, 1, 0, 0, 0⟩⟩]) ∧
    ((CalendarService.mk (NewCalendarRepository isoReadDate)).GetEventsForMonth "u1"
        "2025-01-01" ⟨[⟨"e1", "u1", "standup", ⟨2025, 2, 1, 0, 0, 0⟩⟩], 0⟩).1
      = (some [⟨"u1", "e1", "standup", "2025-02-01"⟩], none) ∧
    CalendarRepository.GetEventsForWeek "u1" ⟨2025, 1, 1, 0, 0, 0⟩
        [⟨"e1", "u1", "standup", ⟨2025, 1, 8, 0, 0, 0⟩⟩]
      = ((none, none), [⟨"e1", "u1", "standup", ⟨2025, 1, 8, 0, 0, 0⟩⟩]) := by
  refine ⟨by decide, by decide, by decide, by decide⟩

/-! ## The three list operations side by side -/

/-- C14: on an empty `user_id` (here with the date `2025-09-29`)
`GetEventsForDay` and `GetEventsForWeek` return the validation error on field
`user_id` with message `can't be empty`, the value
`TestCalendarService_GetEventsForDay` asserts, while `GetEventsForMonth` returns
the message `user id can't be empty`: the three errors are not the same.  For
the empty date `GetEventsForMonth` itself words the message `can't be empty`,
as its siblings do. -/
theorem C14_month_message_differs :
    ((CalendarService.mk MockRepository).GetEventsForDay "" "2025-09-29" ⟨(), 0⟩).1.2
      = some (.validation ⟨"user_id", "can't be empty"⟩) ∧
    ((CalendarService.mk MockRepository).GetEventsForWeek "" "2025-09-29" ⟨(), 0⟩).1.2
      = some (.validation ⟨"user_id", "can't be empty"⟩) ∧
    ((CalendarService.mk MockRepository).GetEventsForMonth "" "2025-09-29" ⟨(), 0⟩).1.2
      = some (.validation ⟨"user_id", "user id can't be empty"⟩) ∧
    ((CalendarService.mk MockRepository).GetEventsForDay "" "2025-09-29" ⟨(), 0⟩).1.2
      ≠ ((CalendarService.mk MockRepository).GetEventsForMonth "" "2025-09-29" ⟨(), 0⟩).1.2 ∧
    ((CalendarService.mk MockRepository).GetEventsForMonth "1" "" ⟨(), 0⟩).1.2
      = some (.validation ⟨"date", "can't be empty"⟩) := by
  refine ⟨by decide, by decide, by decide, by decide, by decide⟩

/-- Where the three list operations agree: for every `user_id` and date string,
either all three pass validation and call their repository query once, with the
same `user_id` and the same parsed date, or all three return a validation error
on the same field and leave the state unchanged.  The errors of
`GetEventsForDay` and `GetEventsForWeek` are equal, and that of
`GetEventsForMonth` equals them whenever the `user_id` is not empty. -/
theorem list_operations_agree {σ : Type} (s : CalendarService σ)
    (userID dateStr : String) (w : World σ) :
    (∃ t, timeParse dateStr = .ok t ∧ userID ≠ "" ∧
      ((CalendarService.mk (recording s.repo)).GetEventsForDay userID dateStr
          ⟨(w.store, []), w.drawn⟩).2.store.2 = [RepoCall.GetEventsForDay userID t] ∧
      ((CalendarService.mk (recording s.repo)).GetEventsForWeek userID dateStr
          ⟨(w.store, []), w.drawn⟩).2.store.2 = [RepoCall.GetEventsForWeek userID t] ∧
      ((CalendarService.mk (recording s.repo)).GetEventsForMonth userID dateStr
          ⟨(w.store, []), w.drawn⟩).2.store.2 = [RepoCall.GetEventsForMonth userID t]) ∨
    (∃ vd vw vm : ValidationError,
      s.GetEventsForDay userID dateStr w = ((none, some (.validation vd)), w) ∧
      s.GetEventsForWeek userID dateStr w = ((none, some (.validation vw)), w) ∧
      s.GetEventsForMonth userID dateStr w = ((none, some (.validation vm)), w) ∧
      vd = vw ∧ vd.Field = vm.Field ∧ (userID ≠ "" → vd = vm)) := by
  by_cases hu : userID = ""
  · right
    refine ⟨⟨"user_id", "can't be empty"⟩, ⟨"user_id", "can't be empty"⟩,
      ⟨"user_id", "user id can't be empty"⟩, ?_, ?_, ?_, rfl, rfl, fun h => absurd hu h⟩
    · simp [CalendarService.GetEventsForDay, hu]
    · simp [CalendarService.GetEventsForWeek, hu]
    · simp [CalendarService.GetEventsForMonth, hu]
  · by_cases hd : dateStr = ""
    · right
      refine ⟨⟨"date", "can't be empty"⟩, ⟨"date", "can't be empty"⟩,
        ⟨"date", "can't be empty"⟩, ?_, ?_, ?_, rfl, rfl, fun _ => rfl⟩
      · simp [CalendarService.GetEventsForDay, hu, hd]
      · simp [CalendarService.GetEventsForWeek, hu, hd]
      · simp [CalendarService.GetEventsForMonth, hu, hd]
    · cases hp : timeParse dateStr with
      | error e =>
        right
        refine ⟨⟨"date", "format must be YYYY-MM-DD"⟩, ⟨"date", "format must be YYYY-MM-DD"⟩,
          ⟨"date", "format must be YYYY-MM-DD"⟩, ?_, ?_, ?_, rfl, rfl, fun _ => rfl⟩
        · simp [CalendarService.GetEventsForDay, hu, hd, hp]
        · simp [CalendarService.GetEventsForWeek, hu, hd, hp]
        · simp [CalendarService.GetEventsForMonth, hu, hd, hp]
      | ok t =>
        left
        refine ⟨t, rfl, hu, ?_, ?_, ?_⟩
        · rcases hr : s.repo.GetEventsForDay userID t w.store with ⟨⟨_ | evs, _ | err⟩, st⟩ <;>
            simp [CalendarService.GetEventsForDay, recording, hu, hd, hp, hr]
        · rcases hr : s.repo.GetEventsForWeek userID t w.store with ⟨⟨_ | evs, _ | err⟩, st⟩ <;>
            simp [CalendarService.GetEventsForWeek, recording, hu, hd, hp, hr]
        · rcases hr : s.repo.GetEventsForMonth userID t w.store with ⟨⟨_ | evs, _ | err⟩, st⟩ <;>
            simp [CalendarService.GetEventsForMonth, recording, hu, hd, hp, hr]

end Calendar
